import Mathlib

/-!
# Message mailbox: repository and service

A shallow embedding of `postgres/repository.go`, `core/service.go`,
`model/types.go`, the handlers of package `api` and the mocks of package
`mock`.

* A point in time (`time.Time`, `timestamptz`) is an `Int`: only the order and
  equality of instants matter to the code.
* The `messages` table is the list of its rows in physical order.
* Every driver call whose error the Go code checks is a possible point of
  failure; `Driver` says which of them fail during one repository call.  A
  statement that fails changes nothing, and a transaction that is not
  committed changes nothing.  The loop over `rows.Next()` sees every row of
  the result (the code does not look at `rows.Err()`).
* A repository method takes the table and returns its Go result together with
  the table afterwards.
* A handler takes the decoded request and returns the status and the value it
  encodes; JSON decoding, routing and logging are outside the embedding.
-/

namespace Mailbox

/-! ## Data model -/

/-- The struct `model.Message`; a row of the `messages` table has the same
five columns (`id`, `user_name`, `content`, `sent_at`, `fetched_at`). -/
structure Message where
  ID : String
  RecipientUserName : String
  Content : String
  SentAt : Int
  FetchedAt : Option Int
deriving DecidableEq, Repr

/-- The rows of the `messages` table, in physical order. -/
abbrev Store := List Message

/-- Go `error` values that occur in the repository and the service.
`ErrNotFound` is the sentinel `model.ErrNotFound`, `ErrNoRows` is
`pgx.ErrNoRows`, `driver` is any other error coming out of the database
driver, and `wrapf ctx e` is `fmt.Errorf(ctx + ": %w", e)`. -/
inductive GoError where
  | ErrNotFound : GoError
  | ErrNoRows : GoError
  | driver (msg : String) : GoError
  | wrapf (ctx : String) (inner : GoError) : GoError
deriving DecidableEq, Repr

deriving instance DecidableEq for Except

/-- The test `errors.Is(err, target)`: `err` or an error it wraps is `target`. -/
def GoError.Is : GoError → GoError → Bool
  | .wrapf ctx inner, target =>
      decide (GoError.wrapf ctx inner = target) || GoError.Is inner target
  | err, target => decide (err = target)

/-- Which driver calls fail during one repository call, and with what error;
`none` means that the call goes through. -/
structure Driver where
  /-- The error of `pool.Begin`. -/
  beginErr : Option GoError
  /-- The error of `pool.Exec` or `tx.Exec`. -/
  execErr : Option GoError
  /-- The error of `tx.Commit`. -/
  commitErr : Option GoError
  /-- The error of `pool.Query`. -/
  queryErr : Option GoError
  /-- The error of `rows.Scan` on the row with the given index. -/
  scanErr : Nat → Option GoError
  /-- The error of `pool.QueryRow(..).Scan` for the given message id, other
  than the absence of the row. -/
  queryRowErr : String → Option GoError

/-- Every driver call goes through. -/
def Driver.ok : Driver :=
  { beginErr := none, execErr := none, commitErr := none, queryErr := none,
    scanErr := fun _ => none, queryRowErr := fun _ => none }

/-- The ids stored in the table. -/
def storedIDs (store : Store) : List String := store.map Message.ID

/-- Modelled from the spec: the migration that creates the `messages` table is
not among the sources; the spec gives it as one table keyed by `id` (unique).
A store is well formed when no two rows share an id. -/
def UniqueIDs (store : Store) : Prop := (storedIDs store).Nodup

instance (store : Store) : Decidable (UniqueIDs store) := by
  unfold UniqueIDs; infer_instance

/-! ## SQL statements -/

/-- The result order of `ORDER BY sent_at ASC`, rows with equal `sent_at` kept
in table order. -/
def orderBySentAt (rows : List Message) : List Message :=
  rows.insertionSort (fun a b => a.SentAt ≤ b.SentAt)

/-- The statement `DELETE FROM messages WHERE id = ANY($1::text[])`: the table
without the matching rows, and the number of rows affected. -/
def execDelete (store : Store) (messageIDs : List String) : Store × Nat :=
  (store.filter (fun m => !decide (m.ID ∈ messageIDs)),
   (store.filter (fun m => decide (m.ID ∈ messageIDs))).length)

/-- The four columns that `GetNewMessages` selects and scans into a fresh
`model.Message`; its `FetchedAt` keeps the zero value `nil`. -/
def scanNew (row : Message) : Message :=
  { ID := row.ID, RecipientUserName := row.RecipientUserName, Content := row.Content,
    SentAt := row.SentAt, FetchedAt := none }

/-- The five columns that `GetAllMessages` selects and scans. -/
def scanAll (row : Message) : Message :=
  { ID := row.ID, RecipientUserName := row.RecipientUserName, Content := row.Content,
    SentAt := row.SentAt, FetchedAt := row.FetchedAt }

/-- The rows of
`SELECT .. FROM messages WHERE fetched_at IS NULL ORDER BY sent_at ASC`. -/
def queryNew (store : Store) : List Message :=
  orderBySentAt (store.filter (fun m => m.FetchedAt.isNone))

/-- The rows of
`SELECT .. FROM messages WHERE ($1 IS NULL OR sent_at >= $1)
AND ($2 IS NULL OR sent_at <= $2) ORDER BY sent_at ASC`. -/
def queryAll (store : Store) (startAt endAt : Option Int) : List Message :=
  orderBySentAt (store.filter (fun m =>
    (match startAt with
      | none => true
      | some t => decide (t ≤ m.SentAt)) &&
    (match endAt with
      | none => true
      | some t => decide (m.SentAt ≤ t))))

/-- The statement
`UPDATE messages SET fetched_at = NOW() WHERE id = ANY($1::text[])`. -/
def execUpdate (now : Int) (store : Store) (messageIDs : List String) : Store :=
  store.map (fun m => if m.ID ∈ messageIDs then { m with FetchedAt := some now } else m)

/-- The statement `INSERT INTO messages (id, user_name, content, sent_at)`:
the new row is appended with `fetched_at` null. -/
def execInsert (store : Store) (message : Message) : Store :=
  store ++ [{ ID := message.ID, RecipientUserName := message.RecipientUserName,
              Content := message.Content, SentAt := message.SentAt, FetchedAt := none }]

/-- The loop `for rows.Next() { rows.Scan(..); messages = append(messages, message) }`,
started at the row with index `i`: the first failing `Scan` ends the method. -/
def scanRows (db : Driver) (scan : Message → Message) :
    Nat → List Message → Except GoError (List Message)
  | _, [] => .ok []
  | i, row :: rows =>
    match db.scanErr i with
    | some err => .error (.wrapf "scan message" err)
    | none =>
      match scanRows db scan (i + 1) rows with
      | .error err => .error err
      | .ok messages => .ok (scan row :: messages)

/-! ## `postgres.Repository` -/

namespace postgres

/-- The method `Repository.InsertMessage`: the returned error (`none` is `nil`)
and the table afterwards.  An id that is already stored violates the key of
the table, and the driver reports it; the key is the one that `UniqueIDs`
takes from the spec, the migration not being among the sources. -/
def InsertMessage (db : Driver) (store : Store) (message : Message) :
    Option GoError × Store :=
  match db.execErr with
  | some err => (some (.wrapf "insert message" err), store)
  | none =>
    if message.ID ∈ storedIDs store then
      (some (.wrapf "insert message" (.driver "unique_violation")), store)
    else
      (none, execInsert store message)

/-- The first half of `Repository.GetNewMessages` (the query and the scan
loop): the messages read, or the error the method returns. -/
def selectNewMessages (db : Driver) (store : Store) : Except GoError (List Message) :=
  match db.queryErr with
  | some err => .error (.wrapf "select messages" err)
  | none => scanRows db scanNew 0 (queryNew store)

/-- The second half of `Repository.GetNewMessages` (the update of
`fetched_at`, a statement of its own outside any transaction). -/
def updateFetchedAt (db : Driver) (now : Int) (store : Store) (messageIDs : List String) :
    Option GoError × Store :=
  match db.execErr with
  | some err => (some (.wrapf "update fetched_at" err), store)
  | none => (none, execUpdate now store messageIDs)

/-- The method `Repository.GetNewMessages`, `now` being the value of `NOW()`
in the update: the result and the table afterwards. -/
def GetNewMessages (db : Driver) (now : Int) (store : Store) :
    Except GoError (List Message) × Store :=
  match selectNewMessages db store with
  | .error err => (.error err, store)
  | .ok messages =>
    match updateFetchedAt db now store (messages.map Message.ID) with
    | (some err, store') => (.error err, store')
    | (none, store') => (.ok messages, store')

/-- The method `Repository.DeleteMessages`: the returned error (`none` is
`nil`) and the table afterwards.  The delete runs in a transaction, which the
deferred `tx.Rollback` discards on every path that does not commit. -/
def DeleteMessages (db : Driver) (store : Store) (messageIDs : List String) :
    Option GoError × Store :=
  match db.beginErr with
  | some err => (some (.wrapf "begin transaction" err), store)
  | none =>
    match db.execErr with
    | some err => (some (.wrapf "delete messages" err), store)
    | none =>
      let (tx, rowsAffected) := execDelete store messageIDs
      if rowsAffected ≠ messageIDs.length then
        (some (.wrapf "delete messages" .ErrNotFound), store)
      else
        match db.commitErr with
        | some err => (some (.wrapf "commit transaction" err), store)
        | none => (none, tx)

/-- The method `Repository.getSentAt`: the `sent_at` of the row with the given
id.  The driver reports `pgx.ErrNoRows` when there is no such row, which the
method turns into `model.ErrNotFound`.  (The `%q` of the message is written
with plain quotes.) -/
def getSentAt (db : Driver) (store : Store) (messageID : String) : Except GoError Int :=
  let scanned : Except GoError Int :=
    match db.queryRowErr messageID with
    | some err => .error err
    | none =>
      match store.find? (fun m => m.ID == messageID) with
      | none => .error .ErrNoRows
      | some row => .ok row.SentAt
  match scanned with
  | .error err =>
    if err.Is .ErrNoRows then
      .error (.wrapf ("message \"" ++ messageID ++ "\"") .ErrNotFound)
    else
      .error (.wrapf "select sent_at" err)
  | .ok sentAt => .ok sentAt

/-- The method `Repository.GetAllMessages`: the result and the table
afterwards (the method only reads). -/
def GetAllMessages (db : Driver) (store : Store) (startCursor endCursor : Option String) :
    Except GoError (List Message) × Store :=
  let startAt : Except GoError (Option Int) :=
    match startCursor with
    | none => .ok none
    | some cursor =>
      match getSentAt db store cursor with
      | .error err => .error (.wrapf "get start at" err)
      | .ok sentAt => .ok (some sentAt)
  match startAt with
  | .error err => (.error err, store)
  | .ok startAt =>
    let endAt : Except GoError (Option Int) :=
      match endCursor with
      | none => .ok none
      | some cursor =>
        match getSentAt db store cursor with
        | .error err => .error (.wrapf "get end at" err)
        | .ok sentAt => .ok (some sentAt)
    match endAt with
    | .error err => (.error err, store)
    | .ok endAt =>
      match db.queryErr with
      | some err => (.error (.wrapf "select messages" err), store)
      | none => (scanRows db scanAll 0 (queryAll store startAt endAt), store)

end postgres

/-! ## `core.Service` -/

/-- The interface `core.Repository`, over the state `σ` that its methods read
and change. -/
structure Repository (σ : Type) where
  InsertMessage : Message → σ → Option GoError × σ
  GetNewMessages : σ → Except GoError (List Message) × σ
  DeleteMessages : List String → σ → Option GoError × σ
  GetAllMessages : Option String → Option String → σ → Except GoError (List Message) × σ

/-- The value of `postgres.NewRepository(pool)` during one call: `db` gives the
driver failures of that call and `now` the database clock. -/
def postgres.NewRepository (db : Driver) (now : Int) : Repository Store :=
  { InsertMessage := fun message store => postgres.InsertMessage db store message,
    GetNewMessages := fun store => postgres.GetNewMessages db now store,
    DeleteMessages := fun messageIDs store => postgres.DeleteMessages db store messageIDs,
    GetAllMessages := fun startCursor endCursor store =>
      postgres.GetAllMessages db store startCursor endCursor }

namespace Service

/-- The method `Service.SubmitMessage`; `uuid` and `now` are the values that
`s.uuid()` and `s.now()` produce in this call. -/
def SubmitMessage {σ : Type} (repo : Repository σ) (uuid : String) (now : Int)
    (recipientUserName messageContent : String) (st : σ) : Except GoError String × σ :=
  let message : Message :=
    { ID := uuid, RecipientUserName := recipientUserName, Content := messageContent,
      SentAt := now, FetchedAt := none }
  match repo.InsertMessage message st with
  | (some err, st') => (.error (.wrapf "insert message" err), st')
  | (none, st') => (.ok message.ID, st')

/-- The method `Service.FetchNewMessages`. -/
def FetchNewMessages {σ : Type} (repo : Repository σ) (st : σ) :
    Except GoError (List Message) × σ :=
  match repo.GetNewMessages st with
  | (.error err, st') => (.error (.wrapf "get new messages" err), st')
  | (.ok messages, st') => (.ok messages, st')

/-- The method `Service.DeleteMessages`. -/
def DeleteMessages {σ : Type} (repo : Repository σ) (messageIDs : List String) (st : σ) :
    Option GoError × σ :=
  match repo.DeleteMessages messageIDs st with
  | (some err, st') => (some (.wrapf "delete messages" err), st')
  | (none, st') => (none, st')

/-- The method `Service.GetAllMessages`. -/
def GetAllMessages {σ : Type} (repo : Repository σ) (startCursor endCursor : Option String)
    (st : σ) : Except GoError (List Message) × σ :=
  match repo.GetAllMessages startCursor endCursor st with
  | (.error err, st') => (.error (.wrapf "get all messages" err), st')
  | (.ok messages, st') => (.ok messages, st')

end Service

/-! ## Calls on the store -/

/-- One call of a repository method. -/
inductive Call where
  | InsertMessage (message : Message) : Call
  | GetNewMessages : Call
  | DeleteMessages (messageIDs : List String) : Call
  | GetAllMessages (startCursor endCursor : Option String) : Call

/-- The table after a call, whether the call succeeds or fails. -/
def Call.run (db : Driver) (now : Int) : Call → Store → Store
  | .InsertMessage message, store => (postgres.InsertMessage db store message).2
  | .GetNewMessages, store => (postgres.GetNewMessages db now store).2
  | .DeleteMessages messageIDs, store => (postgres.DeleteMessages db store messageIDs).2
  | .GetAllMessages startCursor endCursor, store =>
      (postgres.GetAllMessages db store startCursor endCursor).2

/-! ## Concurrent calls of `GetNewMessages` -/

/-- A step of one of several calls of `GetNewMessages` that run at the same
time.  A call sends two statements to the database, outside any transaction:
its query (`select`), and later its update (`update`), after which it returns.
The database runs each statement as a unit; statements of different calls may
come in any order. -/
inductive Step where
  | select (caller : Nat) : Step
  | update (caller : Nat) : Step
deriving DecidableEq, Repr

/-- The state of a run of concurrent calls: the table, the messages each caller
has read and not yet marked, and the lists returned so far with their
callers. -/
structure Run where
  store : Store
  selected : Nat → Option (List Message)
  returned : List (Nat × List Message)

/-- No call has started. -/
def Run.start (store : Store) : Run :=
  { store := store, selected := fun _ => none, returned := [] }

/-- One step of a run without driver failures; `now c` is the database time of
the update of caller `c`.  An update of a caller that has read nothing is not
enabled and leaves the run as it is. -/
def Run.step (now : Nat → Int) (r : Run) : Step → Run
  | .select c =>
    match postgres.selectNewMessages Driver.ok r.store with
    | .error _ => r
    | .ok messages =>
      { store := r.store,
        selected := fun c' => if c' = c then some messages else r.selected c',
        returned := r.returned }
  | .update c =>
    match r.selected c with
    | none => r
    | some messages =>
      { store := (postgres.updateFetchedAt Driver.ok (now c) r.store
          (messages.map Message.ID)).2,
        selected := fun c' => if c' = c then none else r.selected c',
        returned := (c, messages) :: r.returned }

/-- The run after the steps of a schedule, in order. -/
def Run.exec (now : Nat → Int) (r : Run) (schedule : List Step) : Run :=
  schedule.foldl (Run.step now) r

/-- Every message that a run has read, has returned or can still read is a
message of `source`. -/
def Run.Within (source : List Message) (r : Run) : Prop :=
  (∀ c messages, r.selected c = some messages → ∀ m ∈ messages, m ∈ source) ∧
  (∀ p ∈ r.returned, ∀ m ∈ p.2, m ∈ source) ∧
  (∀ m ∈ queryNew r.store, m ∈ source)

/-! ## Sample data -/

/-- An unfetched message sent at time 20. -/
def msg1 : Message :=
  { ID := "id1", RecipientUserName := "recipient1", Content := "content1",
    SentAt := 20, FetchedAt := none }

/-- A message sent at time 10 and fetched at time 15. -/
def msg2 : Message :=
  { ID := "id2", RecipientUserName := "recipient2", Content := "content2",
    SentAt := 10, FetchedAt := some 15 }

/-- An unfetched message sent at time 5. -/
def msg3 : Message :=
  { ID := "id3", RecipientUserName := "recipient3", Content := "content3",
    SentAt := 5, FetchedAt := none }

/-- The row of `msg1` after a fetch at time 100. -/
def msg1Fetched : Message :=
  { ID := "id1", RecipientUserName := "recipient1", Content := "content1",
    SentAt := 20, FetchedAt := some 100 }

/-- The statement sent with `Exec` fails; every other driver call goes
through. -/
def Driver.execFails : Driver :=
  { beginErr := none, execErr := some (.driver "connection reset"), commitErr := none,
    queryErr := none, scanErr := fun _ => none, queryRowErr := fun _ => none }

/-! ## Cursors -/

/-- The `sent_at` bound of a cursor: none for an absent cursor, the `sent_at`
that `getSentAt` finds for a cursor that is given. -/
def Resolves (db : Driver) (store : Store) (cursor : Option String) (bound : Option Int) :
    Prop :=
  (cursor = none ∧ bound = none) ∨
  (∃ id t, cursor = some id ∧ postgres.getSentAt db store id = .ok t ∧ bound = some t)

/-! ## Error kinds -/

/-- The sentinel of package `model` that an error is or wraps, the way the
code gives an error a kind of its own (`model.ErrNotFound`, tested with
`errors.Is`); `none` for an error of the driver, however it is wrapped. -/
def GoError.sentinel : GoError → Option GoError
  | .ErrNotFound => some .ErrNotFound
  | .wrapf _ inner => inner.sentinel
  | _ => none

/-! ## Sequences of calls -/

deriving instance DecidableEq for Call

/-- The table after a sequence of repository calls, each with the driver
failures and the database time of its own. -/
def runAll : List (Driver × Int × Call) → Store → Store
  | [], store => store
  | (db, now, call) :: rest, store => runAll rest (call.run db now store)

/-! ## `mock.Repository` -/

/-- The function fields of the struct `mock.Repository`, for functions that
return an answer and do nothing else. -/
structure mock.Funcs where
  InsertMessageFunc : Message → Option GoError
  GetNewMessagesFunc : Except GoError (List Message)
  DeleteMessagesFunc : List String → Option GoError
  GetAllMessagesFunc : Option String → Option String → Except GoError (List Message)

/-- The mock `mock.Repository` as a `core.Repository`: each method calls its
function; the state is the list of the calls made so far, in order. -/
def mock.Repository (funcs : mock.Funcs) : Mailbox.Repository (List Call) :=
  { InsertMessage := fun message calls =>
      (funcs.InsertMessageFunc message, calls ++ [Call.InsertMessage message]),
    GetNewMessages := fun calls =>
      (funcs.GetNewMessagesFunc, calls ++ [Call.GetNewMessages]),
    DeleteMessages := fun messageIDs calls =>
      (funcs.DeleteMessagesFunc messageIDs, calls ++ [Call.DeleteMessages messageIDs]),
    GetAllMessages := fun startCursor endCursor calls =>
      (funcs.GetAllMessagesFunc startCursor endCursor,
        calls ++ [Call.GetAllMessages startCursor endCursor]) }

/-- Functions of the mock that all report success with no messages. -/
def mock.succeed : mock.Funcs :=
  { InsertMessageFunc := fun _ => none, GetNewMessagesFunc := .ok [],
    DeleteMessagesFunc := fun _ => none, GetAllMessagesFunc := fun _ _ => .ok [] }

/-- Functions of the mock whose delete and listing report `model.ErrNotFound`
and whose insert and fetch report a failure of the driver. -/
def mock.fail : mock.Funcs :=
  { InsertMessageFunc := fun _ => some (.driver "connection reset"),
    GetNewMessagesFunc := .error (.driver "connection reset"),
    DeleteMessagesFunc := fun _ => some .ErrNotFound,
    GetAllMessagesFunc := fun _ _ => .error .ErrNotFound }

/-! ## Package `api` -/

/-- A Go slice value: the nil slice, or a slice with its elements (none, for
an empty slice that is not nil). -/
inductive Slice (α : Type) where
  | nil : Slice α
  | elems (xs : List α) : Slice α
deriving DecidableEq, Repr

/-- The builtin `len` on a slice. -/
def Slice.len {α : Type} : Slice α → Nat
  | .nil => 0
  | .elems xs => xs.length

/-- The elements of a slice, in order. -/
def Slice.toList {α : Type} : Slice α → List α
  | .nil => []
  | .elems xs => xs

/-- The interface `api.Service`, over the state `σ` that its methods read and
change; the id list of `DeleteMessages` is given by its elements. -/
structure api.Service (σ : Type) where
  SubmitMessage : String → String → σ → Except GoError String × σ
  FetchNewMessages : σ → Except GoError (Slice Message) × σ
  DeleteMessages : List String → σ → Option GoError × σ
  GetAllMessages : Option String → Option String → σ → Except GoError (Slice Message) × σ

/-- The value that a handler gives to the JSON encoder: an `HTTPError`, a slice
of messages, the struct with the field `message_id`, or nothing when the
handler only writes the status. -/
inductive Body where
  | HTTPError (Message : String) : Body
  | messages (messages : Slice Message) : Body
  | messageID (MessageID : String) : Body
  | none : Body
deriving DecidableEq, Repr

/-- What a handler writes: the status code and the value it encodes. -/
structure Response where
  status : Nat
  body : Body
deriving DecidableEq, Repr

/-- The function `respondJSONStatus(w, v, status)`. -/
def respondJSONStatus (v : Body) (status : Nat) : Response :=
  { status := status, body := v }

/-- A string as `encoding/json` writes it, for the texts the handlers send:
between quotes, with the quote and the backslash escaped (the escapes of
control and HTML characters are left out). -/
def jsonString (s : String) : String :=
  "\"" ++ String.mk (s.data.flatMap (fun c =>
    if c = '"' then ['\\', '"'] else if c = '\\' then ['\\', '\\'] else [c])) ++ "\""

/-- The text that `json.NewEncoder(w).Encode(v)` writes for the body of a
response, a newline at its end; `encodeMessage` is the encoding of one
`model.Message`.  A nil slice is written `null`, an empty one `[]`. -/
def Body.encode (encodeMessage : Message → String) : Body → String
  | .HTTPError message => "\x7b\"message\":" ++ jsonString message ++ "\x7d\n"
  | .messages .nil => "null\n"
  | .messages (.elems ms) => "[" ++ ",".intercalate (ms.map encodeMessage) ++ "]\n"
  | .messageID id => "\x7b\"message_id\":" ++ jsonString id ++ "\x7d\n"
  | .none => ""

namespace api

/-- The handler `postMessage`; `decoded` is the outcome of decoding the request
body: the text of the decoding error, or the fields `recipient_user_name` and
`content` (empty when missing).  The calls of the logger are left out. -/
def postMessage {σ : Type} (service : api.Service σ)
    (decoded : Except String (String × String)) (st : σ) : Response × σ :=
  match decoded with
  | .error err =>
    (respondJSONStatus (.HTTPError ("decode request body: " ++ err)) 400, st)
  | .ok (recipientUserName, content) =>
    if recipientUserName = "" then
      (respondJSONStatus (.HTTPError "user_name is required") 400, st)
    else
      match service.SubmitMessage recipientUserName content st with
      | (.error _, st') =>
        (respondJSONStatus (.HTTPError "error submitting message") 500, st')
      | (.ok messageID, st') => (respondJSONStatus (.messageID messageID) 200, st')

/-- The handler `getNewMessages`. -/
def getNewMessages {σ : Type} (service : api.Service σ) (st : σ) : Response × σ :=
  match service.FetchNewMessages st with
  | (.error _, st') =>
    (respondJSONStatus (.HTTPError "error fetching new messages") 500, st')
  | (.ok messages, st') =>
    let messages :=
      match messages with
      | .nil => Slice.elems []
      | .elems ms => Slice.elems ms
    (respondJSONStatus (.messages messages) 200, st')

/-- The handler `deleteMessages`; `decoded` is the outcome of decoding the
request body: the text of the decoding error, or the field `message_ids` (nil
when missing). -/
def deleteMessages {σ : Type} (service : api.Service σ)
    (decoded : Except String (Slice String)) (st : σ) : Response × σ :=
  match decoded with
  | .error err =>
    (respondJSONStatus (.HTTPError ("decode request body: " ++ err)) 400, st)
  | .ok messageIDs =>
    if messageIDs.len = 0 then
      (respondJSONStatus (.HTTPError "message_ids is required") 400, st)
    else
      match service.DeleteMessages messageIDs.toList st with
      | (some err, st') =>
        if err.Is .ErrNotFound then
          (respondJSONStatus (.HTTPError "message not found") 404, st')
        else
          (respondJSONStatus (.HTTPError "error deleting messages") 500, st')
      | (none, st') => ({ status := 204, body := .none }, st')

/-- The handler `getAllMessages`; the arguments are the values of the query
parameters `start_cursor` and `end_cursor` (empty when missing). -/
def getAllMessages {σ : Type} (service : api.Service σ)
    (startCursorRaw endCursorRaw : String) (st : σ) : Response × σ :=
  let startCursor : Option String :=
    if startCursorRaw ≠ "" then some startCursorRaw else none
  let endCursor : Option String :=
    if endCursorRaw ≠ "" then some endCursorRaw else none
  match service.GetAllMessages startCursor endCursor st with
  | (.error err, st') =>
    if err.Is .ErrNotFound then
      (respondJSONStatus (.HTTPError "message not found") 404, st')
    else
      (respondJSONStatus (.HTTPError "error fetching all messages") 500, st')
  | (.ok messages, st') =>
    let messages :=
      match messages with
      | .nil => Slice.elems []
      | .elems ms => Slice.elems ms
    (respondJSONStatus (.messages messages) 200, st')

end api

/-! ## `mock.Service` -/

/-- One call of a method of the service. -/
inductive ServiceCall where
  | SubmitMessage (recipientUserName messageContent : String) : ServiceCall
  | FetchNewMessages : ServiceCall
  | DeleteMessages (messageIDs : List String) : ServiceCall
  | GetAllMessages (startCursor endCursor : Option String) : ServiceCall
deriving DecidableEq, Repr

/-- The function fields of the struct `mock.Service`, for functions that
return an answer and do nothing else. -/
structure mock.ServiceFuncs where
  SubmitMessageFunc : String → String → Except GoError String
  FetchNewMessagesFunc : Except GoError (Slice Message)
  DeleteMessagesFunc : List String → Option GoError
  GetAllMessagesFunc : Option String → Option String → Except GoError (Slice Message)

/-- The mock `mock.Service` as an `api.Service`: each method calls its
function; the state is the list of the calls made so far, in order. -/
def mock.Service (funcs : mock.ServiceFuncs) : api.Service (List ServiceCall) :=
  { SubmitMessage := fun recipientUserName messageContent calls =>
      (funcs.SubmitMessageFunc recipientUserName messageContent,
        calls ++ [ServiceCall.SubmitMessage recipientUserName messageContent]),
    FetchNewMessages := fun calls =>
      (funcs.FetchNewMessagesFunc, calls ++ [ServiceCall.FetchNewMessages]),
    DeleteMessages := fun messageIDs calls =>
      (funcs.DeleteMessagesFunc messageIDs, calls ++ [ServiceCall.DeleteMessages messageIDs]),
    GetAllMessages := fun startCursor endCursor calls =>
      (funcs.GetAllMessagesFunc startCursor endCursor,
        calls ++ [ServiceCall.GetAllMessages startCursor endCursor]) }

/-- Functions of the mock service that succeed; the lists they return are
nil. -/
def mock.serviceNil : mock.ServiceFuncs :=
  { SubmitMessageFunc := fun _ _ => .ok "message-id",
    FetchNewMessagesFunc := .ok .nil,
    DeleteMessagesFunc := fun _ => none,
    GetAllMessagesFunc := fun _ _ => .ok .nil }

/-- Functions of the mock service whose delete and listing report
`model.ErrNotFound` under the context of the service. -/
def mock.serviceNotFound : mock.ServiceFuncs :=
  { SubmitMessageFunc := fun _ _ => .error (.driver "service error"),
    FetchNewMessagesFunc := .error (.driver "service error"),
    DeleteMessagesFunc := fun _ => some (.wrapf "delete messages" .ErrNotFound),
    GetAllMessagesFunc := fun _ _ => .error (.wrapf "get all messages" .ErrNotFound) }

/-! ## Rows affected by the delete statement -/

theorem rowsAffected_eq (store : Store) (messageIDs : List String) :
    (execDelete store messageIDs).2 =
      ((storedIDs store).filter (fun id => decide (id ∈ messageIDs))).length := by
  simp [execDelete, storedIDs, List.filter_map, Function.comp_def]

theorem matched_nodup {store : Store} (huniq : UniqueIDs store) (messageIDs : List String) :
    ((storedIDs store).filter (fun id => decide (id ∈ messageIDs))).Nodup :=
  List.Nodup.filter _ huniq

theorem rowsAffected_le_of_subset {store : Store} (huniq : UniqueIDs store)
    (messageIDs bound : List String)
    (hsub : ∀ id ∈ messageIDs, id ∈ storedIDs store → id ∈ bound) :
    (execDelete store messageIDs).2 ≤ bound.length := by
  rw [rowsAffected_eq]
  apply List.Subperm.length_le
  apply List.subperm_of_subset (matched_nodup huniq messageIDs)
  intro id hid
  simp only [List.mem_filter, decide_eq_true_eq] at hid
  exact hsub id hid.2 hid.1

theorem rowsAffected_lt_of_missing {store : Store} (huniq : UniqueIDs store)
    (messageIDs : List String) (hmiss : ∃ id ∈ messageIDs, id ∉ storedIDs store) :
    (execDelete store messageIDs).2 < messageIDs.length := by
  obtain ⟨x, hx, hxs⟩ := hmiss
  have h1 := rowsAffected_le_of_subset huniq messageIDs
    (messageIDs.filter (fun id => !decide (id = x))) (by
      intro id hid hst
      simp only [List.mem_filter, Bool.not_eq_true', decide_eq_false_iff_not]
      exact ⟨hid, fun h => hxs (h ▸ hst)⟩)
  have h2 : (messageIDs.filter (fun id => !decide (id = x))).length < messageIDs.length := by
    apply List.length_filter_lt_length_iff_exists.mpr
    exact ⟨x, hx, by simp⟩
  omega

theorem rowsAffected_lt_of_dup {store : Store} (huniq : UniqueIDs store)
    (messageIDs : List String) (hdup : ¬ messageIDs.Nodup) :
    (execDelete store messageIDs).2 < messageIDs.length := by
  have h1 := rowsAffected_le_of_subset huniq messageIDs messageIDs.dedup (by
      intro id hid _
      exact List.mem_dedup.mpr hid)
  have h2 : messageIDs.dedup.length < messageIDs.length := by
    rcases Nat.lt_or_ge messageIDs.dedup.length messageIDs.length with h | h
    · exact h
    · exfalso
      apply hdup
      have := (List.dedup_sublist messageIDs).eq_of_length_le h
      exact List.dedup_eq_self.mp this
  omega

theorem rowsAffected_eq_of_all_found {store : Store} (huniq : UniqueIDs store)
    (messageIDs : List String) (hnodup : messageIDs.Nodup)
    (hall : ∀ id ∈ messageIDs, id ∈ storedIDs store) :
    (execDelete store messageIDs).2 = messageIDs.length := by
  apply Nat.le_antisymm
  · exact rowsAffected_le_of_subset huniq messageIDs messageIDs (fun _ h _ => h)
  · rw [rowsAffected_eq]
    apply List.Subperm.length_le
    apply List.subperm_of_subset hnodup
    intro id hid
    simp only [List.mem_filter, decide_eq_true_eq]
    exact ⟨hall id hid, hid⟩

theorem DeleteMessages_of_count_ne (db : Driver) (store : Store) (messageIDs : List String)
    (hne : (execDelete store messageIDs).2 ≠ messageIDs.length) :
    (postgres.DeleteMessages db store messageIDs).2 = store ∧
    ∃ err, (postgres.DeleteMessages db store messageIDs).1 = some err ∧
      (db.beginErr = none → db.execErr = none →
        err = .wrapf "delete messages" .ErrNotFound) := by
  unfold postgres.DeleteMessages
  cases hb : db.beginErr with
  | some e => exact ⟨rfl, _, rfl, fun h => by cases h⟩
  | none =>
    cases he : db.execErr with
    | some e => exact ⟨rfl, _, rfl, fun _ h => by cases h⟩
    | none =>
      simp only
      rw [if_pos hne]
      exact ⟨rfl, _, rfl, fun _ _ => rfl⟩

theorem DeleteMessages_of_count_eq (db : Driver) (store : Store) (messageIDs : List String)
    (hbegin : db.beginErr = none) (hexec : db.execErr = none) (hcommit : db.commitErr = none)
    (heq : (execDelete store messageIDs).2 = messageIDs.length) :
    postgres.DeleteMessages db store messageIDs = (none, (execDelete store messageIDs).1) := by
  unfold postgres.DeleteMessages
  rw [hbegin, hexec, hcommit]
  simp only
  rw [if_neg (not_not.mpr heq)]

theorem DeleteMessages_store_of_error (db : Driver) (store : Store) (messageIDs : List String)
    (err : GoError) (h : (postgres.DeleteMessages db store messageIDs).1 = some err) :
    (postgres.DeleteMessages db store messageIDs).2 = store := by
  unfold postgres.DeleteMessages at h ⊢
  cases hb : db.beginErr with
  | some e => simp
  | none =>
    cases he : db.execErr with
    | some e => simp
    | none =>
      by_cases hne : (execDelete store messageIDs).2 ≠ messageIDs.length
      · simp [hne]
      · cases hc : db.commitErr with
        | some e => simp [hne]
        | none => simp [hb, he, hc, hne] at h

/-! ## `DeleteMessages` -/

/-- Claim C1.  On a table keyed by id, a call of `DeleteMessages` with an id
list that names at least one id matching no stored message leaves the table as
it was (no row is deleted, the rows whose ids did match included) and returns
an error; when the transaction begins and the delete statement executes, that
error `err` satisfies `errors.Is(err, model.ErrNotFound)`. -/
theorem DeleteMessages_missing_id_not_found (db : Driver) (store : Store)
    (messageIDs : List String)
    (huniq : UniqueIDs store)
    (hmiss : ∃ id ∈ messageIDs, id ∉ storedIDs store) :
    (postgres.DeleteMessages db store messageIDs).2 = store ∧
    ∃ err, (postgres.DeleteMessages db store messageIDs).1 = some err ∧
      (db.beginErr = none → db.execErr = none → err.Is .ErrNotFound = true) := by
  have hlt := rowsAffected_lt_of_missing huniq messageIDs hmiss
  obtain ⟨hstore, err, herr, hkind⟩ :=
    DeleteMessages_of_count_ne db store messageIDs (Nat.ne_of_lt hlt)
  refine ⟨hstore, err, herr, fun hbegin hexec => ?_⟩
  rw [hkind hbegin hexec]
  decide

/-- Witness of C1: the table of the repository test (`id1`, `id2`) and the id
list `id1`, `id2`, `id3`. -/
theorem DeleteMessages_missing_id_not_found_witness :
    (postgres.DeleteMessages Driver.ok [msg1, msg2] ["id1", "id2", "id3"]).2 = [msg1, msg2] ∧
    ∃ err, (postgres.DeleteMessages Driver.ok [msg1, msg2] ["id1", "id2", "id3"]).1 = some err ∧
      (Driver.ok.beginErr = none → Driver.ok.execErr = none → err.Is .ErrNotFound = true) :=
  DeleteMessages_missing_id_not_found Driver.ok [msg1, msg2] ["id1", "id2", "id3"]
    (by decide) ⟨"id3", by decide, by decide⟩

/-- Claim C2.  On a table keyed by id, when no driver call fails, a call of
`DeleteMessages` with `N` pairwise distinct ids that all identify stored
messages returns no error; the table afterwards holds exactly the rows whose id
is not in the list, unchanged and in their order, and has `N` rows fewer. -/
theorem DeleteMessages_removes_exactly_named (db : Driver) (store : Store)
    (messageIDs : List String)
    (hbegin : db.beginErr = none) (hexec : db.execErr = none)
    (hcommit : db.commitErr = none)
    (huniq : UniqueIDs store) (hnodup : messageIDs.Nodup)
    (hall : ∀ id ∈ messageIDs, id ∈ storedIDs store) :
    (postgres.DeleteMessages db store messageIDs).1 = none ∧
    (∀ m, m ∈ (postgres.DeleteMessages db store messageIDs).2 ↔
      m ∈ store ∧ m.ID ∉ messageIDs) ∧
    List.Sublist (postgres.DeleteMessages db store messageIDs).2 store ∧
    (postgres.DeleteMessages db store messageIDs).2.length + messageIDs.length =
      store.length := by
  have heq := rowsAffected_eq_of_all_found huniq messageIDs hnodup hall
  rw [DeleteMessages_of_count_eq db store messageIDs hbegin hexec hcommit heq]
  refine ⟨rfl, ?_, ?_, ?_⟩
  · intro m
    simp [execDelete]
  · exact List.filter_sublist _
  · rw [← heq]
    simp only [execDelete]
    have h := List.length_eq_length_filter_add (l := store)
      (fun m => decide (m.ID ∈ messageIDs))
    omega

/-- Witness of C2: the table `id1`, `id2`, `id3` and the id list `id3`, `id1`. -/
theorem DeleteMessages_removes_exactly_named_witness :
    (postgres.DeleteMessages Driver.ok [msg1, msg2, msg3] ["id3", "id1"]).1 = none ∧
    (∀ m, m ∈ (postgres.DeleteMessages Driver.ok [msg1, msg2, msg3] ["id3", "id1"]).2 ↔
      m ∈ [msg1, msg2, msg3] ∧ m.ID ∉ ["id3", "id1"]) ∧
    List.Sublist (postgres.DeleteMessages Driver.ok [msg1, msg2, msg3] ["id3", "id1"]).2
      [msg1, msg2, msg3] ∧
    (postgres.DeleteMessages Driver.ok [msg1, msg2, msg3] ["id3", "id1"]).2.length +
      ["id3", "id1"].length = [msg1, msg2, msg3].length :=
  DeleteMessages_removes_exactly_named Driver.ok [msg1, msg2, msg3] ["id3", "id1"] rfl rfl rfl
    (by decide) (by decide) (by decide)

/-- Counterexample to C3: the table holds `id1` and the id list is `id1`, `id1`,
a list with a repeated id all of whose ids are stored; `DeleteMessages` returns
an error and removes nothing. -/
theorem DeleteMessages_duplicate_ids_rejected :
    UniqueIDs [msg1] ∧ ¬ ["id1", "id1"].Nodup ∧
    (∀ id ∈ ["id1", "id1"], id ∈ storedIDs [msg1]) ∧
    postgres.DeleteMessages Driver.ok [msg1] ["id1", "id1"] =
      (some (.wrapf "delete messages" .ErrNotFound), [msg1]) := by
  decide

/-- Claim C3, amended.  `DeleteMessages` does not tolerate duplicate ids: on a
table keyed by id, a call with an id list that contains some id more than once
leaves the table as it was and returns an error, also when every id of the
list identifies a stored message; when the transaction begins and the delete
statement executes, that error `err` satisfies
`errors.Is(err, model.ErrNotFound)`. -/
theorem DeleteMessages_duplicate_ids_not_found (db : Driver) (store : Store)
    (messageIDs : List String)
    (huniq : UniqueIDs store) (hdup : ¬ messageIDs.Nodup) :
    (postgres.DeleteMessages db store messageIDs).2 = store ∧
    ∃ err, (postgres.DeleteMessages db store messageIDs).1 = some err ∧
      (db.beginErr = none → db.execErr = none → err.Is .ErrNotFound = true) := by
  have hlt := rowsAffected_lt_of_dup huniq messageIDs hdup
  obtain ⟨hstore, err, herr, hkind⟩ :=
    DeleteMessages_of_count_ne db store messageIDs (Nat.ne_of_lt hlt)
  refine ⟨hstore, err, herr, fun hbegin hexec => ?_⟩
  rw [hkind hbegin hexec]
  decide

/-- Witness of the amended C3: the table `id1`, `id2` and the id list `id2`,
`id1`, `id2`. -/
theorem DeleteMessages_duplicate_ids_not_found_witness :
    (postgres.DeleteMessages Driver.ok [msg1, msg2] ["id2", "id1", "id2"]).2 = [msg1, msg2] ∧
    ∃ err, (postgres.DeleteMessages Driver.ok [msg1, msg2] ["id2", "id1", "id2"]).1 = some err ∧
      (Driver.ok.beginErr = none → Driver.ok.execErr = none → err.Is .ErrNotFound = true) :=
  DeleteMessages_duplicate_ids_not_found Driver.ok [msg1, msg2] ["id2", "id1", "id2"]
    (by decide) (by decide)

/-! ## Rows read and rows marked by `GetNewMessages` -/

theorem scanRows_ok (db : Driver) (scan : Message → Message) :
    ∀ (rows : List Message) (i : Nat) (messages : List Message),
      scanRows db scan i rows = .ok messages → messages = rows.map scan := by
  intro rows
  induction rows with
  | nil =>
    intro i messages h
    simp only [scanRows, Except.ok.injEq] at h
    simp [← h]
  | cons row rows ih =>
    intro i messages h
    unfold scanRows at h
    cases hs : db.scanErr i with
    | some err => simp [hs] at h
    | none =>
      cases hr : scanRows db scan (i + 1) rows with
      | error err => simp [hs, hr] at h
      | ok rest =>
        simp only [hs, hr, Except.ok.injEq] at h
        rw [← h, ih (i + 1) rest hr]
        rfl

theorem scanRows_of_no_error (db : Driver) (scan : Message → Message)
    (hscan : ∀ i, db.scanErr i = none) :
    ∀ (rows : List Message) (i : Nat), scanRows db scan i rows = .ok (rows.map scan) := by
  intro rows
  induction rows with
  | nil => intro i; rfl
  | cons row rows ih =>
    intro i
    unfold scanRows
    rw [hscan i, ih (i + 1)]
    rfl

theorem mem_queryNew (store : Store) (m : Message) :
    m ∈ queryNew store ↔ m ∈ store ∧ m.FetchedAt = none := by
  unfold queryNew orderBySentAt
  rw [(List.perm_insertionSort _ _).mem_iff]
  simp [List.mem_filter, Option.isNone_iff_eq_none]

theorem queryNew_perm (store : Store) :
    (queryNew store).Perm (store.filter (fun m => m.FetchedAt.isNone)) :=
  List.perm_insertionSort _ _

theorem orderBySentAt_sorted (rows : List Message) :
    (orderBySentAt rows).Sorted (fun a b => a.SentAt ≤ b.SentAt) := by
  unfold orderBySentAt
  have : IsTotal Message (fun a b => a.SentAt ≤ b.SentAt) := ⟨fun a b => Int.le_total _ _⟩
  have : IsTrans Message (fun a b => a.SentAt ≤ b.SentAt) := ⟨fun a b c => Int.le_trans⟩
  exact List.sorted_insertionSort _ _

theorem scanNew_of_unfetched (m : Message) (h : m.FetchedAt = none) : scanNew m = m := by
  cases m
  simp only [scanNew, Message.mk.injEq, true_and]
  exact h.symm

theorem map_scanNew_queryNew (store : Store) :
    (queryNew store).map scanNew = queryNew store := by
  conv_rhs => rw [← List.map_id (queryNew store)]
  apply List.map_congr_left
  intro m hm
  exact scanNew_of_unfetched m ((mem_queryNew store m).mp hm).2

theorem selectNewMessages_ok (db : Driver) (store : Store) (messages : List Message)
    (h : postgres.selectNewMessages db store = .ok messages) :
    messages = queryNew store := by
  unfold postgres.selectNewMessages at h
  cases hq : db.queryErr with
  | some err => simp [hq] at h
  | none =>
    simp only [hq] at h
    rw [scanRows_ok db scanNew _ 0 messages h, map_scanNew_queryNew]

theorem GetNewMessages_ok (db : Driver) (now : Int) (store : Store) (messages : List Message)
    (h : (postgres.GetNewMessages db now store).1 = .ok messages) :
    messages = queryNew store ∧
    (postgres.GetNewMessages db now store).2 =
      execUpdate now store (messages.map Message.ID) := by
  unfold postgres.GetNewMessages at h ⊢
  cases hs : postgres.selectNewMessages db store with
  | error err => simp [hs] at h
  | ok ms =>
    simp only [hs] at h ⊢
    unfold postgres.updateFetchedAt at h ⊢
    cases he : db.execErr with
    | some err => simp [he] at h
    | none =>
      simp only [he, Except.ok.injEq] at h ⊢
      subst h
      exact ⟨selectNewMessages_ok db store ms hs, rfl⟩

theorem GetNewMessages_of_no_error (db : Driver) (now : Int) (store : Store)
    (hquery : db.queryErr = none) (hscan : ∀ i, db.scanErr i = none)
    (hexec : db.execErr = none) :
    postgres.GetNewMessages db now store =
      (.ok (queryNew store), execUpdate now store ((queryNew store).map Message.ID)) := by
  unfold postgres.GetNewMessages postgres.selectNewMessages postgres.updateFetchedAt
  rw [hquery, hexec]
  simp only
  rw [scanRows_of_no_error db scanNew hscan, map_scanNew_queryNew]

theorem GetNewMessages_error (db : Driver) (now : Int) (store : Store) (err : GoError)
    (h : (postgres.GetNewMessages db now store).1 = .error err) :
    (postgres.GetNewMessages db now store).2 = store := by
  unfold postgres.GetNewMessages at h ⊢
  cases hs : postgres.selectNewMessages db store with
  | error e => simp
  | ok ms =>
    simp only [hs] at h ⊢
    unfold postgres.updateFetchedAt at h ⊢
    cases he : db.execErr with
    | some e => simp
    | none => simp [he] at h

theorem mem_execUpdate (now : Int) (store : Store) (messageIDs : List String) (row : Message) :
    row ∈ execUpdate now store messageIDs ↔
      ∃ old ∈ store, row = if old.ID ∈ messageIDs then { old with FetchedAt := some now } else old := by
  unfold execUpdate
  simp only [List.mem_map]
  constructor
  · rintro ⟨old, ho, rfl⟩; exact ⟨old, ho, rfl⟩
  · rintro ⟨old, ho, rfl⟩; exact ⟨old, ho, rfl⟩

theorem eq_of_ID_eq {store : Store} (huniq : UniqueIDs store) {a b : Message}
    (ha : a ∈ store) (hb : b ∈ store) (hid : a.ID = b.ID) : a = b :=
  List.inj_on_of_nodup_map huniq ha hb hid

theorem execUpdate_row_ID (now : Int) (store : Store) (messageIDs : List String)
    (row : Message) (h : row ∈ execUpdate now store messageIDs) :
    ∃ old ∈ store, old.ID = row.ID ∧
      ((old.ID ∈ messageIDs ∧ row.FetchedAt = some now) ∨ (old.ID ∉ messageIDs ∧ row = old)) := by
  obtain ⟨old, ho, hrow⟩ := (mem_execUpdate now store messageIDs row).mp h
  refine ⟨old, ho, ?_, ?_⟩
  · by_cases hin : old.ID ∈ messageIDs
    · simp [hrow, hin]
    · simp [hrow, hin]
  · by_cases hin : old.ID ∈ messageIDs
    · left; simp [hrow, hin]
    · right; simp [hrow, hin]

theorem execUpdate_has_row (now : Int) (store : Store) (messageIDs : List String)
    (old : Message) (h : old ∈ store) :
    ∃ row ∈ execUpdate now store messageIDs, row.ID = old.ID := by
  refine ⟨_, (mem_execUpdate now store messageIDs _).mpr ⟨old, h, rfl⟩, ?_⟩
  by_cases hin : old.ID ∈ messageIDs
  · simp [hin]
  · simp [hin]

theorem execUpdate_queryNew_fetched (now : Int) (store : Store) (row : Message)
    (h : row ∈ execUpdate now store ((queryNew store).map Message.ID)) :
    row.FetchedAt ≠ none := by
  obtain ⟨old, ho, _, hcase⟩ := execUpdate_row_ID now store _ row h
  rcases hcase with ⟨_, hf⟩ | ⟨hnin, heq⟩
  · simp [hf]
  · intro hnone
    apply hnin
    rw [heq] at hnone
    exact List.mem_map.mpr ⟨old, (mem_queryNew store old).mpr ⟨ho, hnone⟩, rfl⟩

theorem queryNew_eq_nil_of_all_fetched (store : Store)
    (h : ∀ row ∈ store, row.FetchedAt ≠ none) : queryNew store = [] := by
  apply List.eq_nil_iff_forall_not_mem.mpr
  intro m hm
  obtain ⟨hs, hn⟩ := (mem_queryNew store m).mp hm
  exact h m hs hn

theorem FetchNewMessages_postgres_ok (db : Driver) (now : Int) (store : Store)
    (messages : List Message)
    (h : (Service.FetchNewMessages (postgres.NewRepository db now) store).1 = .ok messages) :
    (postgres.GetNewMessages db now store).1 = .ok messages ∧
    (Service.FetchNewMessages (postgres.NewRepository db now) store).2 =
      (postgres.GetNewMessages db now store).2 := by
  unfold Service.FetchNewMessages postgres.NewRepository at h ⊢
  simp only at h ⊢
  rcases hg : postgres.GetNewMessages db now store with ⟨res, store'⟩
  cases res with
  | error err => simp [hg] at h
  | ok ms =>
    simp only [hg] at h ⊢
    exact ⟨h, trivial⟩

theorem InsertMessage_store (db : Driver) (store : Store) (message : Message) :
    (postgres.InsertMessage db store message).2 = store ∨
    (message.ID ∉ storedIDs store ∧
      (postgres.InsertMessage db store message).2 = execInsert store message) := by
  unfold postgres.InsertMessage
  cases he : db.execErr with
  | some err => left; rfl
  | none =>
    by_cases hin : message.ID ∈ storedIDs store
    · left; simp [hin]
    · right; simp [hin]

theorem DeleteMessages_store (db : Driver) (store : Store) (messageIDs : List String) :
    (postgres.DeleteMessages db store messageIDs).2 = store ∨
    (postgres.DeleteMessages db store messageIDs).2 = (execDelete store messageIDs).1 := by
  unfold postgres.DeleteMessages
  cases hb : db.beginErr with
  | some e => left; rfl
  | none =>
    cases he : db.execErr with
    | some e => left; rfl
    | none =>
      by_cases hne : (execDelete store messageIDs).2 ≠ messageIDs.length
      · left; simp [hne]
      · cases hc : db.commitErr with
        | some e => left; simp [hne]
        | none => right; simp [hne]

theorem GetNewMessages_store (db : Driver) (now : Int) (store : Store) :
    (postgres.GetNewMessages db now store).2 = store ∨
    (postgres.GetNewMessages db now store).2 =
      execUpdate now store ((queryNew store).map Message.ID) := by
  cases hres : (postgres.GetNewMessages db now store).1 with
  | error err => left; exact GetNewMessages_error db now store err hres
  | ok messages =>
    right
    obtain ⟨hq, hstore⟩ := GetNewMessages_ok db now store messages hres
    rw [hstore, hq]

theorem GetAllMessages_store (db : Driver) (store : Store) (startCursor endCursor : Option String) :
    (postgres.GetAllMessages db store startCursor endCursor).2 = store := by
  unfold postgres.GetAllMessages
  simp only
  split
  · rfl
  · split
    · rfl
    · split <;> rfl

/-! ## Runs of concurrent calls -/

theorem selectNewMessages_ok_driver (store : Store) :
    postgres.selectNewMessages Driver.ok store = .ok (queryNew store) := by
  unfold postgres.selectNewMessages
  simp only [Driver.ok]
  rw [scanRows_of_no_error _ scanNew (fun _ => rfl), map_scanNew_queryNew]

theorem Run.step_select (now : Nat → Int) (r : Run) (c : Nat) :
    Run.step now r (.select c) =
      { store := r.store,
        selected := fun c' => if c' = c then some (queryNew r.store) else r.selected c',
        returned := r.returned } := by
  simp only [Run.step, selectNewMessages_ok_driver]

theorem Run.step_update_some (now : Nat → Int) (r : Run) (c : Nat) (messages : List Message)
    (h : r.selected c = some messages) :
    Run.step now r (.update c) =
      { store := execUpdate (now c) r.store (messages.map Message.ID),
        selected := fun c' => if c' = c then none else r.selected c',
        returned := (c, messages) :: r.returned } := by
  simp only [Run.step, h, postgres.updateFetchedAt, Driver.ok]

theorem Run.step_update_none (now : Nat → Int) (r : Run) (c : Nat)
    (h : r.selected c = none) : Run.step now r (.update c) = r := by
  simp only [Run.step, h]

theorem Run.returned_step (now : Nat → Int) (r : Run) (s : Step) (p : Nat × List Message)
    (h : p ∈ r.returned) : p ∈ (Run.step now r s).returned := by
  cases s with
  | select c => rw [Run.step_select]; exact h
  | update c =>
    cases hs : r.selected c with
    | none => rw [Run.step_update_none now r c hs]; exact h
    | some messages =>
      rw [Run.step_update_some now r c messages hs]
      exact List.mem_cons_of_mem _ h

theorem Run.returned_exec (now : Nat → Int) (schedule : List Step) :
    ∀ (r : Run) (p : Nat × List Message), p ∈ r.returned →
      p ∈ (Run.exec now r schedule).returned := by
  induction schedule with
  | nil => intro r p h; exact h
  | cons s rest ih =>
    intro r p h
    exact ih (Run.step now r s) p (Run.returned_step now r s p h)

theorem Run.returned_of_selected (now : Nat → Int) (c : Nat) (messages : List Message)
    (schedule : List Step) :
    ∀ (r : Run), r.selected c = some messages → Step.select c ∉ schedule →
      Step.update c ∈ schedule → (c, messages) ∈ (Run.exec now r schedule).returned := by
  induction schedule with
  | nil => intro r _ _ hupd; simp at hupd
  | cons s rest ih =>
    intro r hsel hnot hupd
    have hnot' : Step.select c ∉ rest := fun h => hnot (List.mem_cons_of_mem _ h)
    cases s with
    | select c' =>
      have hc : c ≠ c' := fun h => hnot (by rw [h]; exact List.mem_cons_self _ _)
      have hupd' : Step.update c ∈ rest := by
        rcases List.mem_cons.mp hupd with h | h
        · cases h
        · exact h
      apply ih _ _ hnot' hupd'
      rw [Run.step_select]
      simp [hc, hsel]
    | update c' =>
      by_cases hc : c' = c
      · subst hc
        show (c', messages) ∈ (Run.exec now (Run.step now r (.update c')) rest).returned
        apply Run.returned_exec now rest
        rw [Run.step_update_some now r c' messages hsel]
        exact List.mem_cons_self _ _
      · have hupd' : Step.update c ∈ rest := by
          rcases List.mem_cons.mp hupd with h | h
          · cases h; exact absurd rfl hc
          · exact h
        apply ih _ _ hnot' hupd'
        cases hs : r.selected c' with
        | none => rw [Run.step_update_none now r c' hs]; exact hsel
        | some ms =>
          rw [Run.step_update_some now r c' ms hs]
          simp [Ne.symm hc, hsel]

theorem queryNew_execUpdate_subset (now : Int) (store : Store) (messageIDs : List String)
    (m : Message) (h : m ∈ queryNew (execUpdate now store messageIDs)) :
    m ∈ queryNew store := by
  obtain ⟨hm, hnone⟩ := (mem_queryNew _ m).mp h
  obtain ⟨old, ho, _, hcase⟩ := execUpdate_row_ID now store messageIDs m hm
  rcases hcase with ⟨_, hf⟩ | ⟨_, heq⟩
  · rw [hf] at hnone; cases hnone
  · subst heq
    exact (mem_queryNew store m).mpr ⟨ho, hnone⟩

theorem Run.within_step (now : Nat → Int) (source : List Message) (r : Run) (s : Step)
    (h : Run.Within source r) : Run.Within source (Run.step now r s) := by
  obtain ⟨hsel, hret, hq⟩ := h
  cases s with
  | select c =>
    rw [Run.step_select]
    refine ⟨?_, hret, hq⟩
    intro c' messages hc' m hm
    simp only at hc'
    by_cases hcc : c' = c
    · simp only [hcc, if_true, Option.some.injEq] at hc'
      subst hc'
      exact hq m hm
    · simp only [hcc, if_false] at hc'
      exact hsel c' messages hc' m hm
  | update c =>
    cases hs : r.selected c with
    | none => rw [Run.step_update_none now r c hs]; exact ⟨hsel, hret, hq⟩
    | some ms =>
      rw [Run.step_update_some now r c ms hs]
      refine ⟨?_, ?_, ?_⟩
      · intro c' messages hc' m hm
        simp only at hc'
        by_cases hcc : c' = c
        · simp [hcc] at hc'
        · simp only [hcc, if_false] at hc'
          exact hsel c' messages hc' m hm
      · intro p hp m hm
        rcases List.mem_cons.mp hp with h | h
        · subst h
          exact hsel c ms hs m hm
        · exact hret p h m hm
      · intro m hm
        exact hq m (queryNew_execUpdate_subset _ _ _ m hm)

theorem Run.within_exec (now : Nat → Int) (source : List Message) (schedule : List Step) :
    ∀ (r : Run), Run.Within source r → Run.Within source (Run.exec now r schedule) := by
  induction schedule with
  | nil => intro r h; exact h
  | cons s rest ih => intro r h; exact ih _ (Run.within_step now source r s h)

theorem Run.within_start (store : Store) : Run.Within (queryNew store) (Run.start store) :=
  ⟨fun _ _ h => by simp [Run.start] at h, fun _ h => by simp [Run.start] at h, fun _ h => h⟩

/-! ## `GetNewMessages` -/

/-- Claim C4.  A successful `GetNewMessages` returns exactly the stored messages
whose `fetched_at` is null, each as often as it is stored and none whose
`fetched_at` is set, and the returned list is sorted in ascending order of
`SentAt`. -/
theorem GetNewMessages_returns_unfetched_sorted (db : Driver) (now : Int) (store : Store)
    (messages : List Message)
    (hok : (postgres.GetNewMessages db now store).1 = .ok messages) :
    messages.Perm (store.filter (fun m => m.FetchedAt.isNone)) ∧
    (∀ m, m ∈ messages ↔ m ∈ store ∧ m.FetchedAt = none) ∧
    messages.Sorted (fun a b => a.SentAt ≤ b.SentAt) := by
  obtain ⟨hq, _⟩ := GetNewMessages_ok db now store messages hok
  subst hq
  exact ⟨queryNew_perm store, mem_queryNew store, orderBySentAt_sorted _⟩

/-- Witness of C4: the table `id1` (unfetched, sent at 20), `id2` (fetched),
`id3` (unfetched, sent at 5); the call returns `id3`, `id1`. -/
theorem GetNewMessages_returns_unfetched_sorted_witness :
    [msg3, msg1].Perm ([msg1, msg2, msg3].filter (fun m => m.FetchedAt.isNone)) ∧
    (∀ m, m ∈ [msg3, msg1] ↔ m ∈ [msg1, msg2, msg3] ∧ m.FetchedAt = none) ∧
    [msg3, msg1].Sorted (fun a b => a.SentAt ≤ b.SentAt) :=
  GetNewMessages_returns_unfetched_sorted Driver.ok 100 [msg1, msg2, msg3] [msg3, msg1]
    (by decide)

/-- Claim C5.  After a successful `GetNewMessages` at database time `now`, every
message it returned has a row in the table, every row with the id of a returned
message has `fetched_at` equal to `now`, and no row is left with `fetched_at`
null. -/
theorem GetNewMessages_marks_returned (db : Driver) (now : Int) (store : Store)
    (messages : List Message)
    (hok : (postgres.GetNewMessages db now store).1 = .ok messages) :
    (∀ m ∈ messages,
      (∃ row ∈ (postgres.GetNewMessages db now store).2, row.ID = m.ID) ∧
      (∀ row ∈ (postgres.GetNewMessages db now store).2, row.ID = m.ID →
        row.FetchedAt = some now)) ∧
    (∀ row ∈ (postgres.GetNewMessages db now store).2, row.FetchedAt ≠ none) := by
  obtain ⟨hq, hstore⟩ := GetNewMessages_ok db now store messages hok
  rw [hstore]
  subst hq
  refine ⟨fun m hm => ⟨?_, ?_⟩, fun row hrow => execUpdate_queryNew_fetched now store row hrow⟩
  · exact execUpdate_has_row now store _ m ((mem_queryNew store m).mp hm).1
  · intro row hrow hid
    obtain ⟨old, _, hoid, hcase⟩ := execUpdate_row_ID now store _ row hrow
    rcases hcase with ⟨_, hf⟩ | ⟨hnin, _⟩
    · exact hf
    · exfalso
      apply hnin
      rw [hoid, hid]
      exact List.mem_map.mpr ⟨m, hm, rfl⟩

/-- Witness of C5: the table `id1`, `id2`, `id3` at database time 100. -/
theorem GetNewMessages_marks_returned_witness :
    (∀ m ∈ [msg3, msg1],
      (∃ row ∈ (postgres.GetNewMessages Driver.ok 100 [msg1, msg2, msg3]).2, row.ID = m.ID) ∧
      (∀ row ∈ (postgres.GetNewMessages Driver.ok 100 [msg1, msg2, msg3]).2, row.ID = m.ID →
        row.FetchedAt = some 100)) ∧
    (∀ row ∈ (postgres.GetNewMessages Driver.ok 100 [msg1, msg2, msg3]).2,
      row.FetchedAt ≠ none) :=
  GetNewMessages_marks_returned Driver.ok 100 [msg1, msg2, msg3] [msg3, msg1] (by decide)

/-- Claim C6.  When a call of `FetchNewMessages` succeeds and nothing changes
the table before the next call, the next call returns no message: if it
succeeds its result is the empty sequence, and it succeeds whenever its query
and its update go through. -/
theorem FetchNewMessages_twice_second_empty (db₁ db₂ : Driver) (now₁ now₂ : Int)
    (store : Store) (first : List Message)
    (hok : (Service.FetchNewMessages (postgres.NewRepository db₁ now₁) store).1 = .ok first) :
    (∀ second,
      (Service.FetchNewMessages (postgres.NewRepository db₂ now₂)
        (Service.FetchNewMessages (postgres.NewRepository db₁ now₁) store).2).1 = .ok second →
      second = []) ∧
    (db₂.queryErr = none → db₂.execErr = none →
      (Service.FetchNewMessages (postgres.NewRepository db₂ now₂)
        (Service.FetchNewMessages (postgres.NewRepository db₁ now₁) store).2).1 = .ok []) := by
  obtain ⟨hrepo, hstore⟩ := FetchNewMessages_postgres_ok db₁ now₁ store first hok
  obtain ⟨hq, hupd⟩ := GetNewMessages_ok db₁ now₁ store first hrepo
  rw [hstore, hupd]
  subst hq
  have hnil : queryNew (execUpdate now₁ store ((queryNew store).map Message.ID)) = [] :=
    queryNew_eq_nil_of_all_fetched _ (fun row hrow => execUpdate_queryNew_fetched now₁ store row hrow)
  constructor
  · intro second hsecond
    obtain ⟨hrepo₂, _⟩ := FetchNewMessages_postgres_ok db₂ now₂ _ second hsecond
    rw [(GetNewMessages_ok db₂ now₂ _ second hrepo₂).1, hnil]
  · intro hquery hexec
    simp [Service.FetchNewMessages, postgres.NewRepository, postgres.GetNewMessages,
      postgres.selectNewMessages, postgres.updateFetchedAt, hquery, hexec, hnil, scanRows]

/-- Witness of C6: the table `id1`, `id2`, `id3`; the first call returns `id3`,
`id1`. -/
theorem FetchNewMessages_twice_second_empty_witness :
    (∀ second,
      (Service.FetchNewMessages (postgres.NewRepository Driver.ok 101)
        (Service.FetchNewMessages (postgres.NewRepository Driver.ok 100)
          [msg1, msg2, msg3]).2).1 = .ok second →
      second = []) ∧
    (Driver.ok.queryErr = none → Driver.ok.execErr = none →
      (Service.FetchNewMessages (postgres.NewRepository Driver.ok 101)
        (Service.FetchNewMessages (postgres.NewRepository Driver.ok 100)
          [msg1, msg2, msg3]).2).1 = .ok []) :=
  FetchNewMessages_twice_second_empty Driver.ok Driver.ok 100 101 [msg1, msg2, msg3]
    [msg3, msg1] (by decide)

/-- Claim C7.  Every message in the list returned by `GetNewMessages` has
`FetchedAt` equal to `nil`, although the same call sets `fetched_at` to the
database time on the row of that message. -/
theorem GetNewMessages_returned_FetchedAt_nil (db : Driver) (now : Int) (store : Store)
    (messages : List Message)
    (hok : (postgres.GetNewMessages db now store).1 = .ok messages)
    (m : Message) (hm : m ∈ messages) :
    m.FetchedAt = none ∧
      ∃ row ∈ (postgres.GetNewMessages db now store).2,
        row.ID = m.ID ∧ row.FetchedAt = some now := by
  obtain ⟨hq, hstore⟩ := GetNewMessages_ok db now store messages hok
  rw [hstore]
  subst hq
  obtain ⟨hmem, hnone⟩ := (mem_queryNew store m).mp hm
  refine ⟨hnone, ?_⟩
  obtain ⟨row, hrow, hid⟩ := execUpdate_has_row now store ((queryNew store).map Message.ID) m hmem
  refine ⟨row, hrow, hid, ?_⟩
  obtain ⟨old, _, hoid, hcase⟩ := execUpdate_row_ID now store _ row hrow
  rcases hcase with ⟨_, hf⟩ | ⟨hnin, _⟩
  · exact hf
  · exfalso
    apply hnin
    rw [hoid, hid]
    exact List.mem_map.mpr ⟨m, hm, rfl⟩

/-- Witness of C7: the table `id1`, `id2`, `id3` at database time 100, and the
returned message `id3`. -/
theorem GetNewMessages_returned_FetchedAt_nil_witness :
    msg3.FetchedAt = none ∧
      ∃ row ∈ (postgres.GetNewMessages Driver.ok 100 [msg1, msg2, msg3]).2,
        row.ID = msg3.ID ∧ row.FetchedAt = some 100 :=
  GetNewMessages_returned_FetchedAt_nil Driver.ok 100 [msg1, msg2, msg3] [msg3, msg1]
    (by decide) msg3 (by decide)

/-! ## The life of `fetched_at` -/

/-- Claim C8.  On a table keyed by id, for every repository call
(`InsertMessage`, `GetNewMessages`, `DeleteMessages`, `GetAllMessages`,
succeeding or failing) and every message stored both before and after the
call: a `fetched_at` that was set before has the same value after, and a
`fetched_at` that differs after the call was null before, is set after, and the
call is `GetNewMessages`. -/
theorem fetchedAt_set_once_only_by_GetNewMessages (db : Driver) (now : Int) (call : Call)
    (store : Store) (before after : Message)
    (huniq : UniqueIDs store)
    (hbefore : before ∈ store) (hafter : after ∈ call.run db now store)
    (hid : after.ID = before.ID) :
    (∀ t, before.FetchedAt = some t → after.FetchedAt = some t) ∧
    (after.FetchedAt ≠ before.FetchedAt →
      before.FetchedAt = none ∧ after.FetchedAt ≠ none ∧ call = Call.GetNewMessages) := by
  have hsame : after ∈ store →
      (∀ t, before.FetchedAt = some t → after.FetchedAt = some t) ∧
      (after.FetchedAt ≠ before.FetchedAt →
        before.FetchedAt = none ∧ after.FetchedAt ≠ none ∧ call = Call.GetNewMessages) := by
    intro h
    have heq := eq_of_ID_eq huniq h hbefore hid
    subst heq
    exact ⟨fun _ ht => ht, fun hne => absurd rfl hne⟩
  cases call with
  | InsertMessage message =>
    simp only [Call.run] at hafter
    rcases InsertMessage_store db store message with h | ⟨hnew, h⟩
    · rw [h] at hafter; exact hsame hafter
    · rw [h] at hafter
      simp only [execInsert, List.mem_append, List.mem_singleton] at hafter
      rcases hafter with h | h
      · exact hsame h
      · exfalso
        apply hnew
        have : message.ID = before.ID := by rw [← hid, h]
        rw [this]
        exact List.mem_map.mpr ⟨before, hbefore, rfl⟩
  | GetNewMessages =>
    simp only [Call.run] at hafter
    rcases GetNewMessages_store db now store with h | h
    · rw [h] at hafter; exact hsame hafter
    · rw [h] at hafter
      obtain ⟨old, ho, hoid, hcase⟩ := execUpdate_row_ID now store _ after hafter
      have hold : old = before := eq_of_ID_eq huniq ho hbefore (hoid.trans hid)
      subst hold
      rcases hcase with ⟨hin, hf⟩ | ⟨_, heq⟩
      · obtain ⟨q, hq, hqid⟩ := List.mem_map.mp hin
        obtain ⟨hqs, hqn⟩ := (mem_queryNew store q).mp hq
        have hqo : q = old := eq_of_ID_eq huniq hqs ho hqid
        subst hqo
        refine ⟨fun t ht => ?_, fun _ => ⟨hqn, by simp [hf], rfl⟩⟩
        rw [hqn] at ht
        cases ht
      · subst heq
        exact ⟨fun _ ht => ht, fun hne => absurd rfl hne⟩
  | DeleteMessages messageIDs =>
    simp only [Call.run] at hafter
    rcases DeleteMessages_store db store messageIDs with h | h
    · rw [h] at hafter; exact hsame hafter
    · rw [h] at hafter
      exact hsame (List.mem_of_mem_filter hafter)
  | GetAllMessages startCursor endCursor =>
    simp only [Call.run, GetAllMessages_store] at hafter
    exact hsame hafter

/-- Witness of C8: `GetNewMessages` on the table `id1`, `id2`, `id3`, watched at
the row `id1`, whose `fetched_at` is null before the call and 100 after. -/
theorem fetchedAt_set_once_only_by_GetNewMessages_witness :
    (∀ t, msg1.FetchedAt = some t → msg1Fetched.FetchedAt = some t) ∧
    (msg1Fetched.FetchedAt ≠ msg1.FetchedAt →
      msg1.FetchedAt = none ∧ msg1Fetched.FetchedAt ≠ none ∧
        Call.GetNewMessages = Call.GetNewMessages) :=
  fetchedAt_set_once_only_by_GetNewMessages Driver.ok 100 Call.GetNewMessages
    [msg1, msg2, msg3] msg1 msg1Fetched (by decide) (by decide) (by decide) rfl

/-- Claim C9.  If `GetNewMessages` returns an error (the select fails, a row
scan fails, or the update of `fetched_at` fails), no record has been marked
fetched: the table after the call is the table before it. -/
theorem GetNewMessages_error_leaves_store (db : Driver) (now : Int) (store : Store)
    (err : GoError)
    (herr : (postgres.GetNewMessages db now store).1 = .error err) :
    (postgres.GetNewMessages db now store).2 = store :=
  GetNewMessages_error db now store err herr

/-- Witness of C9: the update of `fetched_at` fails after the query has read
`id3` and `id1`. -/
theorem GetNewMessages_error_leaves_store_witness :
    (postgres.GetNewMessages Driver.execFails 100 [msg1, msg2, msg3]).2 =
      [msg1, msg2, msg3] :=
  GetNewMessages_error_leaves_store Driver.execFails 100 [msg1, msg2, msg3]
    (.wrapf "update fetched_at" (.driver "connection reset")) (by decide)

/-! ## Concurrent calls -/

/-- Counterexample to C10: one unfetched message `id1` and two concurrent
calls whose queries both run before either update; the message is returned to
both callers. -/
theorem concurrent_GetNewMessages_overlap :
    (Run.exec (fun _ => 100) (Run.start [msg1])
      [.select 0, .select 1, .update 0, .update 1]).returned =
      [(1, [msg1]), (0, [msg1])] := by
  decide

/-- Claim C10, amended.  Concurrent calls against the same table omit no
message and return nothing else: in every schedule, the call whose query runs
first, once it has run its update, has returned exactly the messages that were
unfetched at the start, each once; and every message returned to any caller is
a stored message that was unfetched at the start.  (The calls need not
partition the set.) -/
theorem concurrent_GetNewMessages_no_omission (now : Nat → Int) (store : Store)
    (first : Nat) (rest : List Step)
    (honce : Step.select first ∉ rest) (hdone : Step.update first ∈ rest) :
    (∃ messages,
      (first, messages) ∈
        (Run.exec now (Run.start store) (.select first :: rest)).returned ∧
      messages.Perm (store.filter (fun m => m.FetchedAt.isNone))) ∧
    (∀ p ∈ (Run.exec now (Run.start store) (.select first :: rest)).returned,
      ∀ m ∈ p.2, m ∈ store ∧ m.FetchedAt = none) := by
  constructor
  · refine ⟨queryNew store, ?_, queryNew_perm store⟩
    show (first, queryNew store) ∈
      (Run.exec now (Run.step now (Run.start store) (.select first)) rest).returned
    apply Run.returned_of_selected now first (queryNew store) rest _ _ honce hdone
    rw [Run.step_select]
    simp [Run.start]
  · intro p hp m hm
    have hwithin := Run.within_exec now (queryNew store) (.select first :: rest)
      (Run.start store) (Run.within_start store)
    exact (mem_queryNew store m).mp (hwithin.2.1 p hp m hm)

/-- Witness of the amended C10: the table `id1`, `id2`, `id3` and two calls
whose queries both run before the updates. -/
theorem concurrent_GetNewMessages_no_omission_witness :
    (∃ messages,
      (0, messages) ∈
        (Run.exec (fun _ => 100) (Run.start [msg1, msg2, msg3])
          (.select 0 :: [.select 1, .update 0, .update 1])).returned ∧
      messages.Perm ([msg1, msg2, msg3].filter (fun m => m.FetchedAt.isNone))) ∧
    (∀ p ∈ (Run.exec (fun _ => 100) (Run.start [msg1, msg2, msg3])
        (.select 0 :: [.select 1, .update 0, .update 1])).returned,
      ∀ m ∈ p.2, m ∈ [msg1, msg2, msg3] ∧ m.FetchedAt = none) :=
  concurrent_GetNewMessages_no_omission (fun _ => 100) [msg1, msg2, msg3] 0
    [.select 1, .update 0, .update 1] (by decide) (by decide)

/-! ## Cursor lookup and range query -/

theorem find_of_mem {store : Store} (huniq : UniqueIDs store) {m : Message} (hm : m ∈ store) :
    store.find? (fun row => row.ID == m.ID) = some m := by
  cases hf : store.find? (fun row => row.ID == m.ID) with
  | none =>
    have := List.find?_eq_none.mp hf m hm
    simp at this
  | some row =>
    have hmem : row ∈ store := List.mem_of_find?_eq_some hf
    have hid : row.ID = m.ID := by
      have := List.find?_some hf
      simpa using this
    rw [eq_of_ID_eq huniq hmem hm hid]

theorem find_of_not_stored {store : Store} {messageID : String}
    (h : messageID ∉ storedIDs store) :
    store.find? (fun row => row.ID == messageID) = none := by
  apply List.find?_eq_none.mpr
  intro row hrow hid
  apply h
  have : row.ID = messageID := by simpa using hid
  rw [← this]
  exact List.mem_map.mpr ⟨row, hrow, rfl⟩

theorem getSentAt_of_mem (db : Driver) {store : Store} (huniq : UniqueIDs store)
    {m : Message} (hm : m ∈ store) (hrow : db.queryRowErr m.ID = none) :
    postgres.getSentAt db store m.ID = .ok m.SentAt := by
  unfold postgres.getSentAt
  simp only [hrow, find_of_mem huniq hm]

theorem getSentAt_of_not_stored (db : Driver) {store : Store} {messageID : String}
    (h : messageID ∉ storedIDs store) (hrow : db.queryRowErr messageID = none) :
    postgres.getSentAt db store messageID =
      .error (.wrapf ("message \"" ++ messageID ++ "\"") .ErrNotFound) := by
  unfold postgres.getSentAt
  simp only [hrow, find_of_not_stored h]
  rfl

theorem getSentAt_ok (db : Driver) (store : Store) (messageID : String) (sentAt : Int)
    (h : postgres.getSentAt db store messageID = .ok sentAt) :
    ∃ row ∈ store, row.ID = messageID ∧ row.SentAt = sentAt := by
  unfold postgres.getSentAt at h
  cases hq : db.queryRowErr messageID with
  | some err =>
    simp only [hq] at h
    split at h <;> cases h
  | none =>
    cases hf : store.find? (fun row => row.ID == messageID) with
    | none =>
      simp only [hq, hf] at h
      split at h <;> cases h
    | some row =>
      simp only [hq, hf, Except.ok.injEq] at h
      refine ⟨row, List.mem_of_find?_eq_some hf, ?_, h⟩
      have := List.find?_some hf
      simpa using this

theorem getSentAt_error_of_fault (db : Driver) (store : Store) (messageID : String)
    (err : GoError) (hq : db.queryRowErr messageID = some err) :
    ∃ e, postgres.getSentAt db store messageID = .error e := by
  unfold postgres.getSentAt
  simp only [hq]
  split <;> exact ⟨_, rfl⟩

theorem scanAll_eq (m : Message) : scanAll m = m := rfl

theorem map_scanAll (rows : List Message) : rows.map scanAll = rows := by
  conv_rhs => rw [← List.map_id rows]
  exact List.map_congr_left (fun m _ => scanAll_eq m)

theorem GetAllMessages_ok (db : Driver) (store : Store) (startCursor endCursor : Option String)
    (messages : List Message)
    (h : (postgres.GetAllMessages db store startCursor endCursor).1 = .ok messages) :
    ∃ startAt endAt, Resolves db store startCursor startAt ∧
      Resolves db store endCursor endAt ∧ messages = queryAll store startAt endAt := by
  unfold postgres.GetAllMessages at h
  have hscan : ∀ startAt endAt,
      (match db.queryErr with
        | some err => ((Except.error (GoError.wrapf "select messages" err) :
            Except GoError (List Message)), store)
        | none => (scanRows db scanAll 0 (queryAll store startAt endAt), store)).1 =
        .ok messages → messages = queryAll store startAt endAt := by
    intro startAt endAt hq
    cases hqe : db.queryErr with
    | some err => simp [hqe] at hq
    | none =>
      simp only [hqe] at hq
      rw [scanRows_ok db scanAll _ 0 messages hq, map_scanAll]
  cases startCursor with
  | none =>
    cases endCursor with
    | none =>
      exact ⟨none, none, Or.inl ⟨rfl, rfl⟩, Or.inl ⟨rfl, rfl⟩, hscan none none h⟩
    | some e =>
      cases hge : postgres.getSentAt db store e with
      | error err => simp [hge] at h
      | ok t =>
        simp only [hge] at h
        exact ⟨none, some t, Or.inl ⟨rfl, rfl⟩, Or.inr ⟨e, t, rfl, hge, rfl⟩, hscan none (some t) h⟩
  | some s =>
    cases hgs : postgres.getSentAt db store s with
    | error err => simp [hgs] at h
    | ok ts =>
      cases endCursor with
      | none =>
        simp only [hgs] at h
        exact ⟨some ts, none, Or.inr ⟨s, ts, rfl, hgs, rfl⟩, Or.inl ⟨rfl, rfl⟩,
          hscan (some ts) none h⟩
      | some e =>
        cases hge : postgres.getSentAt db store e with
        | error err => simp [hgs, hge] at h
        | ok t =>
          simp only [hgs, hge] at h
          exact ⟨some ts, some t, Or.inr ⟨s, ts, rfl, hgs, rfl⟩, Or.inr ⟨e, t, rfl, hge, rfl⟩,
            hscan (some ts) (some t) h⟩

theorem GetAllMessages_of_resolved (db : Driver) (store : Store)
    (startCursor endCursor : Option String) (startAt endAt : Option Int)
    (hstart : Resolves db store startCursor startAt)
    (hend : Resolves db store endCursor endAt)
    (hquery : db.queryErr = none) (hscan : ∀ i, db.scanErr i = none) :
    postgres.GetAllMessages db store startCursor endCursor =
      (.ok (queryAll store startAt endAt), store) := by
  unfold postgres.GetAllMessages
  rcases hstart with ⟨rfl, rfl⟩ | ⟨s, ts, rfl, hgs, rfl⟩ <;>
    rcases hend with ⟨rfl, rfl⟩ | ⟨e, te, rfl, hge, rfl⟩ <;>
    simp only [*, scanRows_of_no_error db scanAll hscan, map_scanAll]

theorem mem_queryAll (store : Store) (startAt endAt : Option Int) (m : Message) :
    m ∈ queryAll store startAt endAt ↔
      m ∈ store ∧ (∀ t, startAt = some t → t ≤ m.SentAt) ∧
        (∀ t, endAt = some t → m.SentAt ≤ t) := by
  unfold queryAll orderBySentAt
  rw [(List.perm_insertionSort _ _).mem_iff]
  cases startAt <;> cases endAt <;> simp [List.mem_filter]

theorem queryAll_perm (store : Store) (startMsg endMsg : Option Message) :
    (queryAll store (startMsg.map Message.SentAt) (endMsg.map Message.SentAt)).Perm
      (store.filter (fun m =>
        startMsg.all (fun sm => decide (sm.SentAt ≤ m.SentAt)) &&
        endMsg.all (fun em => decide (m.SentAt ≤ em.SentAt)))) := by
  unfold queryAll orderBySentAt
  refine (List.perm_insertionSort _ _).trans ?_
  cases startMsg <;> cases endMsg <;> exact List.Perm.refl _

theorem queryAll_none_perm (store : Store) : (queryAll store none none).Perm store := by
  unfold queryAll orderBySentAt
  refine (List.perm_insertionSort _ _).trans ?_
  simp

theorem resolves_of_stored (db : Driver) {store : Store} (huniq : UniqueIDs store)
    (cursorMsg : Option Message) (hmem : ∀ cm, cursorMsg = some cm → cm ∈ store)
    (hrow : ∀ id, db.queryRowErr id = none) :
    Resolves db store (cursorMsg.map Message.ID) (cursorMsg.map Message.SentAt) := by
  cases cursorMsg with
  | none => exact Or.inl ⟨rfl, rfl⟩
  | some cm =>
    exact Or.inr ⟨cm.ID, cm.SentAt, rfl, getSentAt_of_mem db huniq (hmem cm rfl) (hrow cm.ID), rfl⟩

theorem resolves_unique (db : Driver) {store : Store} (huniq : UniqueIDs store)
    (cursorMsg : Option Message) (hmem : ∀ cm, cursorMsg = some cm → cm ∈ store)
    (bound : Option Int) (h : Resolves db store (cursorMsg.map Message.ID) bound) :
    bound = cursorMsg.map Message.SentAt := by
  rcases h with ⟨hc, hb⟩ | ⟨id, t, hc, hg, hb⟩
  · cases cursorMsg with
    | none => rw [hb]; rfl
    | some cm => simp at hc
  · cases cursorMsg with
    | none => simp at hc
    | some cm =>
      simp only [Option.map_some', Option.some.injEq] at hc
      subst hc
      obtain ⟨row, hrow, hid, hsent⟩ := getSentAt_ok db store cm.ID t hg
      have : row = cm := eq_of_ID_eq huniq hrow (hmem cm rfl) hid
      subst this
      rw [hb, ← hsent]
      rfl

theorem not_resolves_of_not_stored (db : Driver) {store : Store} {id : String}
    (hid : id ∉ storedIDs store) (bound : Option Int) :
    ¬ Resolves db store (some id) bound := by
  rintro (⟨hn, _⟩ | ⟨id', t, hc, hg, _⟩)
  · cases hn
  · cases hc
    obtain ⟨row, hrow, hrid, _⟩ := getSentAt_ok db store id t hg
    exact hid (hrid ▸ List.mem_map.mpr ⟨row, hrow, rfl⟩)

theorem getSentAt_error_kind (db : Driver) (store : Store) (id : String) (e : GoError)
    (hrow : db.queryRowErr id = none) (h : postgres.getSentAt db store id = .error e) :
    e = .wrapf ("message \"" ++ id ++ "\"") .ErrNotFound := by
  unfold postgres.getSentAt at h
  cases hf : store.find? (fun row => row.ID == id) with
  | none =>
    simp only [hrow, hf] at h
    have hIs : GoError.Is .ErrNoRows .ErrNoRows = true := by decide
    rw [if_pos hIs] at h
    cases h
    rfl
  | some row => simp [hrow, hf] at h

theorem GetAllMessages_error (db : Driver) (store : Store) (startCursor endCursor : Option String)
    (err : GoError)
    (h : (postgres.GetAllMessages db store startCursor endCursor).1 = .error err) :
    (∃ ctx id e, postgres.getSentAt db store id = .error e ∧ err = .wrapf ctx e) ∨
    (∃ startAt endAt, Resolves db store startCursor startAt ∧
      Resolves db store endCursor endAt) := by
  unfold postgres.GetAllMessages at h
  cases startCursor with
  | none =>
    cases endCursor with
    | none => exact Or.inr ⟨none, none, Or.inl ⟨rfl, rfl⟩, Or.inl ⟨rfl, rfl⟩⟩
    | some e =>
      cases hge : postgres.getSentAt db store e with
      | error ee =>
        simp only [hge, Except.error.injEq] at h
        exact Or.inl ⟨_, e, ee, hge, h.symm⟩
      | ok t =>
        exact Or.inr ⟨none, some t, Or.inl ⟨rfl, rfl⟩, Or.inr ⟨e, t, rfl, hge, rfl⟩⟩
  | some s =>
    cases hgs : postgres.getSentAt db store s with
    | error es =>
      simp only [hgs, Except.error.injEq] at h
      exact Or.inl ⟨_, s, es, hgs, h.symm⟩
    | ok ts =>
      cases endCursor with
      | none =>
        exact Or.inr ⟨some ts, none, Or.inr ⟨s, ts, rfl, hgs, rfl⟩, Or.inl ⟨rfl, rfl⟩⟩
      | some e =>
        cases hge : postgres.getSentAt db store e with
        | error ee =>
          simp only [hgs, hge, Except.error.injEq] at h
          exact Or.inl ⟨_, e, ee, hge, h.symm⟩
        | ok t =>
          exact Or.inr ⟨some ts, some t, Or.inr ⟨s, ts, rfl, hgs, rfl⟩,
            Or.inr ⟨e, t, rfl, hge, rfl⟩⟩

/-! ## `GetAllMessages` -/

/-- Claim C11.  `GetAllMessages` with both cursors absent, when it succeeds,
returns every stored message exactly once, fetched and unfetched alike, each
as it is stored (its `FetchedAt` included), sorted in ascending order of
`SentAt`; and it succeeds whenever its query and the scans go through. -/
theorem GetAllMessages_no_cursor_returns_all (db : Driver) (store : Store) :
    (∀ messages, (postgres.GetAllMessages db store none none).1 = .ok messages →
      messages.Perm store ∧ messages.Sorted (fun a b => a.SentAt ≤ b.SentAt)) ∧
    (db.queryErr = none → (∀ i, db.scanErr i = none) →
      ∃ messages, (postgres.GetAllMessages db store none none).1 = .ok messages) := by
  constructor
  · intro messages hok
    obtain ⟨startAt, endAt, hs, he, hq⟩ := GetAllMessages_ok db store none none messages hok
    rcases hs with ⟨_, rfl⟩ | ⟨_, _, hc, _, _⟩
    · rcases he with ⟨_, rfl⟩ | ⟨_, _, hc, _, _⟩
      · subst hq
        exact ⟨queryAll_none_perm store, orderBySentAt_sorted _⟩
      · cases hc
    · cases hc
  · intro hquery hscan
    refine ⟨queryAll store none none, ?_⟩
    rw [GetAllMessages_of_resolved db store none none none none (Or.inl ⟨rfl, rfl⟩)
      (Or.inl ⟨rfl, rfl⟩) hquery hscan]

/-- Witness of C11: the table `id1` (sent at 20), `id2` (sent at 10, fetched),
`id3` (sent at 5); the call returns `id3`, `id2`, `id1`. -/
theorem GetAllMessages_no_cursor_returns_all_witness :
    [msg3, msg2, msg1].Perm [msg1, msg2, msg3] ∧
      [msg3, msg2, msg1].Sorted (fun a b => a.SentAt ≤ b.SentAt) :=
  (GetAllMessages_no_cursor_returns_all Driver.ok [msg1, msg2, msg3]).1 [msg3, msg2, msg1]
    (by decide)

/-- Claim C12.  On a table keyed by id, with each cursor absent or the id of a
stored message (`startMsg`, `endMsg`), a successful `GetAllMessages` returns
exactly the stored messages `m` with `SentAt m >= SentAt startMsg` when a start
cursor is given and `SentAt m <= SentAt endMsg` when an end cursor is given,
each once, sorted in ascending order of `SentAt`; with a single cursor the
cursor message itself is in the result; and the call succeeds whenever no
driver call fails. -/
theorem GetAllMessages_cursor_range (db : Driver) (store : Store)
    (startMsg endMsg : Option Message)
    (huniq : UniqueIDs store)
    (hstart : ∀ sm, startMsg = some sm → sm ∈ store)
    (hend : ∀ em, endMsg = some em → em ∈ store) :
    (∀ messages,
      (postgres.GetAllMessages db store (startMsg.map Message.ID)
        (endMsg.map Message.ID)).1 = .ok messages →
      (∀ m, m ∈ messages ↔ m ∈ store ∧
        (∀ sm, startMsg = some sm → sm.SentAt ≤ m.SentAt) ∧
        (∀ em, endMsg = some em → m.SentAt ≤ em.SentAt)) ∧
      messages.Perm (store.filter (fun m =>
        startMsg.all (fun sm => decide (sm.SentAt ≤ m.SentAt)) &&
        endMsg.all (fun em => decide (m.SentAt ≤ em.SentAt)))) ∧
      messages.Sorted (fun a b => a.SentAt ≤ b.SentAt) ∧
      (endMsg = none → ∀ sm, startMsg = some sm → sm ∈ messages) ∧
      (startMsg = none → ∀ em, endMsg = some em → em ∈ messages)) ∧
    ((∀ id, db.queryRowErr id = none) → db.queryErr = none → (∀ i, db.scanErr i = none) →
      ∃ messages,
        (postgres.GetAllMessages db store (startMsg.map Message.ID)
          (endMsg.map Message.ID)).1 = .ok messages) := by
  constructor
  · intro messages hok
    obtain ⟨startAt, endAt, hs, he, hq⟩ := GetAllMessages_ok db store _ _ messages hok
    have hsa := resolves_unique db huniq startMsg hstart startAt hs
    have hea := resolves_unique db huniq endMsg hend endAt he
    subst hsa hea hq
    have hmem : ∀ m, m ∈ queryAll store (startMsg.map Message.SentAt)
        (endMsg.map Message.SentAt) ↔ m ∈ store ∧
        (∀ sm, startMsg = some sm → sm.SentAt ≤ m.SentAt) ∧
        (∀ em, endMsg = some em → m.SentAt ≤ em.SentAt) := by
      intro m
      rw [mem_queryAll]
      cases startMsg <;> cases endMsg <;> simp
    refine ⟨hmem, queryAll_perm store startMsg endMsg, orderBySentAt_sorted _, ?_, ?_⟩
    · intro hnone sm hsm
      subst hnone hsm
      exact (hmem sm).mpr ⟨hstart sm rfl, fun sm' h => (by cases h; exact le_refl _),
        fun em h => (by cases h)⟩
    · intro hnone em hem
      subst hnone hem
      exact (hmem em).mpr ⟨hend em rfl, fun sm h => (by cases h),
        fun em' h => (by cases h; exact le_refl _)⟩
  · intro hrow hquery hscan
    refine ⟨queryAll store (startMsg.map Message.SentAt) (endMsg.map Message.SentAt), ?_⟩
    rw [GetAllMessages_of_resolved db store _ _ _ _
      (resolves_of_stored db huniq startMsg hstart hrow)
      (resolves_of_stored db huniq endMsg hend hrow) hquery hscan]

/-- Witness of C12: the table `id1` (sent at 20), `id2` (sent at 10), `id3`
(sent at 5) and the start cursor `id2`; the call returns `id2`, `id1`. -/
theorem GetAllMessages_cursor_range_witness :
    (∀ m, m ∈ [msg2, msg1] ↔ m ∈ [msg1, msg2, msg3] ∧
      (∀ sm, some msg2 = some sm → sm.SentAt ≤ m.SentAt) ∧
      (∀ em, (none : Option Message) = some em → m.SentAt ≤ em.SentAt)) ∧
    [msg2, msg1].Perm ([msg1, msg2, msg3].filter (fun m =>
      (some msg2).all (fun sm => decide (sm.SentAt ≤ m.SentAt)) &&
      (none : Option Message).all (fun em => decide (m.SentAt ≤ em.SentAt)))) ∧
    [msg2, msg1].Sorted (fun a b => a.SentAt ≤ b.SentAt) ∧
    ((none : Option Message) = none → ∀ sm, some msg2 = some sm → sm ∈ [msg2, msg1]) ∧
    (some msg2 = none → ∀ em, (none : Option Message) = some em → em ∈ [msg2, msg1]) :=
  (GetAllMessages_cursor_range Driver.ok [msg1, msg2, msg3] (some msg2) none (by decide)
    (fun sm h => by cases h; decide) (fun em h => by cases h)).1 [msg2, msg1] (by decide)

/-- Claim C13.  If a supplied start cursor or a supplied end cursor is not the
id of any stored message, `GetAllMessages` returns no messages and an error;
when no cursor lookup fails in the driver, that error `err` satisfies
`errors.Is(err, model.ErrNotFound)`. -/
theorem GetAllMessages_missing_cursor_not_found (db : Driver) (store : Store)
    (startCursor endCursor : Option String)
    (hmiss : (∃ id, startCursor = some id ∧ id ∉ storedIDs store) ∨
      (∃ id, endCursor = some id ∧ id ∉ storedIDs store)) :
    ∃ err, (postgres.GetAllMessages db store startCursor endCursor).1 = .error err ∧
      ((∀ id, db.queryRowErr id = none) → err.Is .ErrNotFound = true) := by
  have hnot : ¬ ∃ startAt endAt, Resolves db store startCursor startAt ∧
      Resolves db store endCursor endAt := by
    rintro ⟨startAt, endAt, hs, he⟩
    rcases hmiss with ⟨id, hc, hid⟩ | ⟨id, hc, hid⟩
    · rw [hc] at hs; exact not_resolves_of_not_stored db hid startAt hs
    · rw [hc] at he; exact not_resolves_of_not_stored db hid endAt he
  cases hres : (postgres.GetAllMessages db store startCursor endCursor).1 with
  | ok messages =>
    obtain ⟨startAt, endAt, hs, he, _⟩ := GetAllMessages_ok db store _ _ messages hres
    exact absurd ⟨startAt, endAt, hs, he⟩ hnot
  | error err =>
    refine ⟨err, rfl, fun hrow => ?_⟩
    rcases GetAllMessages_error db store startCursor endCursor err hres with
      ⟨ctx, id, e, hg, herr⟩ | hresolved
    · rw [herr, getSentAt_error_kind db store id e (hrow id) hg]
      simp [GoError.Is]
    · exact absurd hresolved hnot

/-- Witness of C13: the table `id1`, `id2`, `id3` and the start cursor
`missing`. -/
theorem GetAllMessages_missing_cursor_not_found_witness :
    ∃ err, (postgres.GetAllMessages Driver.ok [msg1, msg2, msg3] (some "missing") none).1 =
        .error err ∧
      ((∀ id, Driver.ok.queryRowErr id = none) → err.Is .ErrNotFound = true) :=
  GetAllMessages_missing_cursor_not_found Driver.ok [msg1, msg2, msg3] (some "missing") none
    (Or.inl ⟨"missing", rfl, by decide⟩)

/-- Claim C14.  `GetAllMessages` never changes the table: whatever the cursors
and whether the call succeeds or fails, the table after the call is the table
before it, and every message the call returns is a row of that table, so it
carries the `fetched_at` stored for it. -/
theorem GetAllMessages_reads_only (db : Driver) (store : Store)
    (startCursor endCursor : Option String) :
    (postgres.GetAllMessages db store startCursor endCursor).2 = store ∧
    ∀ messages, (postgres.GetAllMessages db store startCursor endCursor).1 = .ok messages →
      ∀ m ∈ messages, m ∈ (postgres.GetAllMessages db store startCursor endCursor).2 := by
  refine ⟨GetAllMessages_store db store startCursor endCursor, ?_⟩
  intro messages hok m hm
  rw [GetAllMessages_store]
  obtain ⟨startAt, endAt, _, _, hq⟩ := GetAllMessages_ok db store _ _ messages hok
  subst hq
  exact ((mem_queryAll store startAt endAt m).mp hm).1

/-- Witness of C14: the table `id1`, `id2`, `id3`, the end cursor `id2`, and
the returned message `id2`, fetched at 15. -/
theorem GetAllMessages_reads_only_witness :
    msg2 ∈ (postgres.GetAllMessages Driver.ok [msg1, msg2, msg3] none (some "id2")).2 :=
  (GetAllMessages_reads_only Driver.ok [msg1, msg2, msg3] none (some "id2")).2 [msg3, msg2]
    (by decide) msg2 (by decide)

/-! ## `InsertMessage` -/

theorem storedIDs_execUpdate (now : Int) (store : Store) (messageIDs : List String) :
    storedIDs (execUpdate now store messageIDs) = storedIDs store := by
  unfold storedIDs execUpdate
  rw [List.map_map]
  apply List.map_congr_left
  intro m _
  by_cases h : m.ID ∈ messageIDs <;> simp [h]

theorem uniqueIDs_execInsert {store : Store} (huniq : UniqueIDs store) (message : Message)
    (hnew : message.ID ∉ storedIDs store) : UniqueIDs (execInsert store message) := by
  unfold UniqueIDs storedIDs execInsert at *
  rw [List.map_append, List.nodup_append]
  refine ⟨huniq, by simp, ?_⟩
  intro a ha hb
  simp only [List.map_cons, List.map_nil, List.mem_singleton] at hb
  exact hnew (hb ▸ ha)

theorem uniqueIDs_run (db : Driver) (now : Int) (call : Call) {store : Store}
    (huniq : UniqueIDs store) : UniqueIDs (call.run db now store) := by
  cases call with
  | InsertMessage message =>
    simp only [Call.run]
    rcases InsertMessage_store db store message with h | ⟨hnew, h⟩
    · rw [h]; exact huniq
    · rw [h]; exact uniqueIDs_execInsert huniq message hnew
  | GetNewMessages =>
    simp only [Call.run]
    rcases GetNewMessages_store db now store with h | h
    · rw [h]; exact huniq
    · rw [h]
      unfold UniqueIDs
      rw [storedIDs_execUpdate]
      exact huniq
  | DeleteMessages messageIDs =>
    simp only [Call.run]
    rcases DeleteMessages_store db store messageIDs with h | h
    · rw [h]; exact huniq
    · rw [h]
      exact List.Nodup.sublist ((List.filter_sublist _).map Message.ID) huniq
  | GetAllMessages startCursor endCursor =>
    simp only [Call.run, GetAllMessages_store]
    exact huniq

theorem InsertMessage_of_new (db : Driver) (store : Store) (message : Message)
    (hexec : db.execErr = none) (hnew : message.ID ∉ storedIDs store) :
    postgres.InsertMessage db store message = (none, execInsert store message) := by
  unfold postgres.InsertMessage
  rw [hexec]
  simp only
  rw [if_neg hnew]

theorem InsertMessage_ok (db : Driver) (store : Store) (message : Message)
    (h : (postgres.InsertMessage db store message).1 = none) :
    db.execErr = none ∧ message.ID ∉ storedIDs store ∧
      (postgres.InsertMessage db store message).2 = execInsert store message := by
  unfold postgres.InsertMessage at h ⊢
  cases he : db.execErr with
  | some err => simp [he] at h
  | none =>
    by_cases hin : message.ID ∈ storedIDs store
    · simp [he, hin] at h
    · simp [hin]

theorem InsertMessage_of_stored (db : Driver) (store : Store) (message : Message)
    (hdup : message.ID ∈ storedIDs store) :
    (postgres.InsertMessage db store message).2 = store ∧
    ∃ cause, (postgres.InsertMessage db store message).1 =
        some (.wrapf "insert message" cause) ∧
      (db.execErr = none → cause = .driver "unique_violation") ∧
      (∀ err, db.execErr = some err → cause = err) := by
  unfold postgres.InsertMessage
  cases he : db.execErr with
  | some err => exact ⟨rfl, err, rfl, fun h => (by cases h), fun e h => (by cases h; rfl)⟩
  | none =>
    simp only
    rw [if_pos hdup]
    exact ⟨rfl, _, rfl, fun _ => rfl, fun e h => (by cases h)⟩

/-- Claim C15.  For every message whose id is not yet stored, when the insert
statement executes, `InsertMessage` returns no error and the table afterwards
is the table before followed by one new row with the id, recipient user name,
content and `SentAt` of the message and with `fetched_at` null, whatever
`FetchedAt` the message carries. -/
theorem InsertMessage_adds_unfetched_row (db : Driver) (store : Store) (message : Message)
    (hexec : db.execErr = none) (hnew : message.ID ∉ storedIDs store) :
    postgres.InsertMessage db store message =
      (none, store ++ [{ ID := message.ID, RecipientUserName := message.RecipientUserName,
                         Content := message.Content, SentAt := message.SentAt,
                         FetchedAt := none }]) :=
  InsertMessage_of_new db store message hexec hnew

/-- Witness of C15: the message `id2`, which carries `FetchedAt` 15, inserted
into the table `id1`, `id3`. -/
theorem InsertMessage_adds_unfetched_row_witness :
    postgres.InsertMessage Driver.ok [msg1, msg3] msg2 =
      (none, [msg1, msg3] ++ [{ ID := msg2.ID, RecipientUserName := msg2.RecipientUserName,
                                Content := msg2.Content, SentAt := msg2.SentAt,
                                FetchedAt := none }]) :=
  InsertMessage_adds_unfetched_row Driver.ok [msg1, msg3] msg2 rfl (by decide)

/-- Counterexample to C16: inserting `id1` into a table that holds `id1` fails
with the error of the driver under the context `insert message`; that error
carries no kind of the code, exactly like the error of an insert that fails
because the connection is lost. -/
theorem InsertMessage_duplicate_id_no_kind :
    postgres.InsertMessage Driver.ok [msg1] msg1 =
      (some (.wrapf "insert message" (.driver "unique_violation")), [msg1]) ∧
    GoError.sentinel (.wrapf "insert message" (.driver "unique_violation")) = none ∧
    postgres.InsertMessage Driver.execFails [] msg1 =
      (some (.wrapf "insert message" (.driver "connection reset")), []) ∧
    GoError.sentinel (.wrapf "insert message" (.driver "connection reset")) = none := by
  decide

/-- Claim C16, amended.  For every message whose id already identifies a stored
message, `InsertMessage` fails and leaves the table as it was; the error is the
error of the driver (the violation of the key, or the failure of the statement)
wrapped with the context `insert message`; the error of a violated key wraps no
sentinel of the code, so it has no kind of its own. -/
theorem InsertMessage_duplicate_id_fails (db : Driver) (store : Store) (message : Message)
    (hdup : message.ID ∈ storedIDs store) :
    (postgres.InsertMessage db store message).2 = store ∧
    ∃ cause, (postgres.InsertMessage db store message).1 =
        some (.wrapf "insert message" cause) ∧
      (db.execErr = none → cause = .driver "unique_violation") ∧
      (∀ err, db.execErr = some err → cause = err) ∧
      (db.execErr = none → GoError.sentinel (.wrapf "insert message" cause) = none) := by
  obtain ⟨hstore, cause, herr, hkey, hfault⟩ := InsertMessage_of_stored db store message hdup
  refine ⟨hstore, cause, herr, hkey, hfault, fun hexec => ?_⟩
  rw [hkey hexec]
  rfl

/-- Witness of the amended C16: the message `id2` inserted into the table
`id1`, `id2`, `id3`. -/
theorem InsertMessage_duplicate_id_fails_witness :
    (postgres.InsertMessage Driver.ok [msg1, msg2, msg3] msg2).2 = [msg1, msg2, msg3] ∧
    ∃ cause, (postgres.InsertMessage Driver.ok [msg1, msg2, msg3] msg2).1 =
        some (.wrapf "insert message" cause) ∧
      (Driver.ok.execErr = none → cause = .driver "unique_violation") ∧
      (∀ err, Driver.ok.execErr = some err → cause = err) ∧
      (Driver.ok.execErr = none →
        GoError.sentinel (.wrapf "insert message" cause) = none) :=
  InsertMessage_duplicate_id_fails Driver.ok [msg1, msg2, msg3] msg2 (by decide)

/-- Claim C17.  Id uniqueness is an invariant of the table: from a table whose
ids are pairwise distinct, every sequence of `InsertMessage`, `GetNewMessages`,
`DeleteMessages` and `GetAllMessages` calls, succeeding or failing, leaves a
table whose ids are pairwise distinct. -/
theorem uniqueIDs_invariant (calls : List (Driver × Int × Call)) (store : Store)
    (huniq : UniqueIDs store) : UniqueIDs (runAll calls store) := by
  induction calls generalizing store with
  | nil => exact huniq
  | cons step rest ih =>
    obtain ⟨db, now, call⟩ := step
    exact ih (call.run db now store) (uniqueIDs_run db now call huniq)

/-- Witness of C17: on the table `id1`, `id2`, an insert of `id2` (rejected), an
insert of `id3`, a fetch, a delete of `id1` and a listing. -/
theorem uniqueIDs_invariant_witness :
    UniqueIDs (runAll
      [(Driver.ok, 100, Call.InsertMessage msg2), (Driver.ok, 101, Call.InsertMessage msg3),
       (Driver.ok, 102, Call.GetNewMessages), (Driver.ok, 103, Call.DeleteMessages ["id1"]),
       (Driver.ok, 104, Call.GetAllMessages none none)] [msg1, msg2]) :=
  uniqueIDs_invariant _ [msg1, msg2] (by decide)

/-! ## `SubmitMessage` -/

theorem SubmitMessage_postgres_ok (db : Driver) (dbNow : Int) (uuid : String) (now : Int)
    (recipientUserName messageContent : String) (store : Store) (id : String)
    (h : (Service.SubmitMessage (postgres.NewRepository db dbNow) uuid now recipientUserName
      messageContent store).1 = .ok id) :
    id = uuid ∧ uuid ∉ storedIDs store ∧
    (Service.SubmitMessage (postgres.NewRepository db dbNow) uuid now recipientUserName
      messageContent store).2 =
      store ++ [{ ID := uuid, RecipientUserName := recipientUserName,
                  Content := messageContent, SentAt := now, FetchedAt := none }] := by
  unfold Service.SubmitMessage postgres.NewRepository at h ⊢
  simp only at h ⊢
  rcases hins : postgres.InsertMessage db store
    { ID := uuid, RecipientUserName := recipientUserName, Content := messageContent,
      SentAt := now, FetchedAt := none } with ⟨res, store'⟩
  cases res with
  | some err => simp [hins] at h
  | none =>
    simp only [hins, Except.ok.injEq] at h ⊢
    have hfst : (postgres.InsertMessage db store
        { ID := uuid, RecipientUserName := recipientUserName, Content := messageContent,
          SentAt := now, FetchedAt := none }).1 = none := by rw [hins]
    obtain ⟨_, hnew, hstore⟩ := InsertMessage_ok db store _ hfst
    rw [hins] at hstore
    exact ⟨h.symm, hnew, hstore⟩

theorem Service_GetAllMessages_postgres_ok (db : Driver) (dbNow : Int) (store : Store)
    (startCursor endCursor : Option String) (messages : List Message) :
    (Service.GetAllMessages (postgres.NewRepository db dbNow) startCursor endCursor store).1 =
      .ok messages ↔
    (postgres.GetAllMessages db store startCursor endCursor).1 = .ok messages := by
  unfold Service.GetAllMessages postgres.NewRepository
  simp only
  rcases hg : postgres.GetAllMessages db store startCursor endCursor with ⟨res, store'⟩
  cases res with
  | error err => simp
  | ok ms => simp

/-- Claim C18.  `SubmitMessage` calls `InsertMessage` of its repository exactly
once, with the message made of the value of the uuid function, the recipient,
the content, the value of the now function and a nil `FetchedAt`: on the mock
repository, whatever its functions answer, the calls recorded after
`SubmitMessage` are the calls recorded before followed by that one call; and
when the insert of any repository returns no error, `SubmitMessage` returns
that same id with a nil error. -/
theorem SubmitMessage_inserts_once (funcs : mock.Funcs) (calls : List Call)
    (uuid : String) (now : Int) (recipientUserName messageContent : String) :
    (Service.SubmitMessage (mock.Repository funcs) uuid now recipientUserName messageContent
      calls).2 =
      calls ++ [Call.InsertMessage
        { ID := uuid, RecipientUserName := recipientUserName, Content := messageContent,
          SentAt := now, FetchedAt := none }] ∧
    ∀ (σ : Type) (repo : Repository σ) (st : σ),
      (repo.InsertMessage
        { ID := uuid, RecipientUserName := recipientUserName, Content := messageContent,
          SentAt := now, FetchedAt := none } st).1 = none →
      (Service.SubmitMessage repo uuid now recipientUserName messageContent st).1 =
        .ok uuid := by
  constructor
  · unfold Service.SubmitMessage mock.Repository
    simp only
    cases funcs.InsertMessageFunc
      { ID := uuid, RecipientUserName := recipientUserName, Content := messageContent,
        SentAt := now, FetchedAt := none } <;> rfl
  · intro σ repo st hnone
    unfold Service.SubmitMessage
    simp only
    rcases hins : repo.InsertMessage
      { ID := uuid, RecipientUserName := recipientUserName, Content := messageContent,
        SentAt := now, FetchedAt := none } st with ⟨res, st'⟩
    rw [hins] at hnone
    simp only at hnone
    subst hnone
    rfl

/-- Witness of C18: the scenario of the service test, uuid `uuid`, recipient
`recipient`, content `content`, on a mock whose insert succeeds. -/
theorem SubmitMessage_inserts_once_witness :
    (Service.SubmitMessage (mock.Repository mock.succeed) "uuid" 7 "recipient" "content" []).2 =
      [] ++ [Call.InsertMessage
        { ID := "uuid", RecipientUserName := "recipient", Content := "content",
          SentAt := 7, FetchedAt := none }] ∧
    (Service.SubmitMessage (mock.Repository mock.succeed) "uuid" 7 "recipient" "content" []).1 =
      .ok "uuid" :=
  ⟨(SubmitMessage_inserts_once mock.succeed [] "uuid" 7 "recipient" "content").1,
   (SubmitMessage_inserts_once mock.succeed [] "uuid" 7 "recipient" "content").2
     (List Call) (mock.Repository mock.succeed) [] rfl⟩

/-- Claim C19.  If `SubmitMessage` succeeds and returns `id`, a `GetAllMessages`
with no cursors that follows it, when it succeeds, returns a list that includes
a message with that id, that recipient user name and that content; and it
succeeds whenever its query and the scans go through. -/
theorem SubmitMessage_then_listed (db₁ db₂ : Driver) (dbNow₁ dbNow₂ : Int) (uuid : String)
    (now : Int) (recipientUserName messageContent : String) (store : Store) (id : String)
    (hok : (Service.SubmitMessage (postgres.NewRepository db₁ dbNow₁) uuid now
      recipientUserName messageContent store).1 = .ok id) :
    (∀ messages,
      (Service.GetAllMessages (postgres.NewRepository db₂ dbNow₂) none none
        (Service.SubmitMessage (postgres.NewRepository db₁ dbNow₁) uuid now
          recipientUserName messageContent store).2).1 = .ok messages →
      ∃ m ∈ messages, m.ID = id ∧ m.RecipientUserName = recipientUserName ∧
        m.Content = messageContent) ∧
    (db₂.queryErr = none → (∀ i, db₂.scanErr i = none) →
      ∃ messages,
        (Service.GetAllMessages (postgres.NewRepository db₂ dbNow₂) none none
          (Service.SubmitMessage (postgres.NewRepository db₁ dbNow₁) uuid now
            recipientUserName messageContent store).2).1 = .ok messages) := by
  obtain ⟨hid, _, hstore⟩ := SubmitMessage_postgres_ok db₁ dbNow₁ uuid now recipientUserName
    messageContent store id hok
  rw [hstore]
  subst hid
  constructor
  · intro messages hlist
    rw [Service_GetAllMessages_postgres_ok] at hlist
    obtain ⟨startAt, endAt, hs, he, hq⟩ := GetAllMessages_ok db₂ _ none none messages hlist
    rcases hs with ⟨_, rfl⟩ | ⟨_, _, hc, _, _⟩
    · rcases he with ⟨_, rfl⟩ | ⟨_, _, hc, _, _⟩
      · subst hq
        refine ⟨_, (mem_queryAll _ none none _).mpr ⟨List.mem_append_right _
          (List.mem_singleton_self _), fun _ h => (by cases h), fun _ h => (by cases h)⟩,
          rfl, rfl, rfl⟩
      · cases hc
    · cases hc
  · intro hquery hscan
    have hall := GetAllMessages_of_resolved db₂
      (store ++ [{ ID := id, RecipientUserName := recipientUserName,
                   Content := messageContent, SentAt := now, FetchedAt := none }])
      none none none none (Or.inl ⟨rfl, rfl⟩) (Or.inl ⟨rfl, rfl⟩) hquery hscan
    exact ⟨_, (Service_GetAllMessages_postgres_ok db₂ dbNow₂ _ none none _).mpr
      (by rw [hall])⟩

/-- Witness of C19: the message `uuid` for `recipient` submitted at time 7 to
the table `id1`, `id2`, `id3`, and the listing that follows. -/
theorem SubmitMessage_then_listed_witness :
    (∀ messages,
      (Service.GetAllMessages (postgres.NewRepository Driver.ok 101) none none
        (Service.SubmitMessage (postgres.NewRepository Driver.ok 100) "uuid" 7
          "recipient" "content" [msg1, msg2, msg3]).2).1 = .ok messages →
      ∃ m ∈ messages, m.ID = "uuid" ∧ m.RecipientUserName = "recipient" ∧
        m.Content = "content") ∧
    (Driver.ok.queryErr = none → (∀ i, Driver.ok.scanErr i = none) →
      ∃ messages,
        (Service.GetAllMessages (postgres.NewRepository Driver.ok 101) none none
          (Service.SubmitMessage (postgres.NewRepository Driver.ok 100) "uuid" 7
            "recipient" "content" [msg1, msg2, msg3]).2).1 = .ok messages) :=
  SubmitMessage_then_listed Driver.ok Driver.ok 100 101 "uuid" 7 "recipient" "content"
    [msg1, msg2, msg3] "uuid" (by decide)

/-- Claim C20.  Whenever `SubmitMessage` succeeds, the id it returns is the
value of the uuid function and is not the id of any message that was stored
before the call. -/
theorem SubmitMessage_returns_new_id (db : Driver) (dbNow : Int) (uuid : String) (now : Int)
    (recipientUserName messageContent : String) (store : Store) (id : String)
    (hok : (Service.SubmitMessage (postgres.NewRepository db dbNow) uuid now
      recipientUserName messageContent store).1 = .ok id) :
    id = uuid ∧ ∀ m ∈ store, m.ID ≠ id := by
  obtain ⟨hid, hnew, _⟩ := SubmitMessage_postgres_ok db dbNow uuid now recipientUserName
    messageContent store id hok
  refine ⟨hid, fun m hm heq => hnew ?_⟩
  rw [← hid, ← heq]
  exact List.mem_map.mpr ⟨m, hm, rfl⟩

/-- Witness of C20: the message `uuid` submitted to the table `id1`, `id2`,
`id3`. -/
theorem SubmitMessage_returns_new_id_witness :
    "uuid" = "uuid" ∧ ∀ m ∈ [msg1, msg2, msg3], m.ID ≠ "uuid" :=
  SubmitMessage_returns_new_id Driver.ok 100 "uuid" 7 "recipient" "content"
    [msg1, msg2, msg3] "uuid" (by decide)

/-! ## Wrapped errors -/

theorem Is_wrapf_ErrNotFound (ctx : String) (e : GoError) :
    (GoError.wrapf ctx e).Is .ErrNotFound = e.Is .ErrNotFound := by
  simp [GoError.Is]

theorem Service_DeleteMessages_error {σ : Type} (repo : Repository σ) (messageIDs : List String)
    (st : σ) (e : GoError) (h : (repo.DeleteMessages messageIDs st).1 = some e) :
    Service.DeleteMessages repo messageIDs st =
      (some (.wrapf "delete messages" e), (repo.DeleteMessages messageIDs st).2) := by
  unfold Service.DeleteMessages
  rcases hr : repo.DeleteMessages messageIDs st with ⟨res, st'⟩
  rw [hr] at h
  simp only at h
  subst h
  rfl

theorem Service_DeleteMessages_ok {σ : Type} (repo : Repository σ) (messageIDs : List String)
    (st : σ) (h : (repo.DeleteMessages messageIDs st).1 = none) :
    Service.DeleteMessages repo messageIDs st =
      (none, (repo.DeleteMessages messageIDs st).2) := by
  unfold Service.DeleteMessages
  rcases hr : repo.DeleteMessages messageIDs st with ⟨res, st'⟩
  rw [hr] at h
  simp only at h
  subst h
  rfl

theorem Service_GetAllMessages_error {σ : Type} (repo : Repository σ)
    (startCursor endCursor : Option String) (st : σ) (e : GoError)
    (h : (repo.GetAllMessages startCursor endCursor st).1 = .error e) :
    Service.GetAllMessages repo startCursor endCursor st =
      (.error (.wrapf "get all messages" e),
        (repo.GetAllMessages startCursor endCursor st).2) := by
  unfold Service.GetAllMessages
  rcases hr : repo.GetAllMessages startCursor endCursor st with ⟨res, st'⟩
  rw [hr] at h
  simp only at h
  subst h
  rfl

theorem Service_GetAllMessages_ok {σ : Type} (repo : Repository σ)
    (startCursor endCursor : Option String) (st : σ) (messages : List Message)
    (h : (repo.GetAllMessages startCursor endCursor st).1 = .ok messages) :
    Service.GetAllMessages repo startCursor endCursor st =
      (.ok messages, (repo.GetAllMessages startCursor endCursor st).2) := by
  unfold Service.GetAllMessages
  rcases hr : repo.GetAllMessages startCursor endCursor st with ⟨res, st'⟩
  rw [hr] at h
  simp only at h
  subst h
  rfl

theorem Service_FetchNewMessages_error {σ : Type} (repo : Repository σ) (st : σ) (e : GoError)
    (h : (repo.GetNewMessages st).1 = .error e) :
    Service.FetchNewMessages repo st =
      (.error (.wrapf "get new messages" e), (repo.GetNewMessages st).2) := by
  unfold Service.FetchNewMessages
  rcases hr : repo.GetNewMessages st with ⟨res, st'⟩
  rw [hr] at h
  simp only at h
  subst h
  rfl

theorem Service_FetchNewMessages_ok {σ : Type} (repo : Repository σ) (st : σ)
    (messages : List Message) (h : (repo.GetNewMessages st).1 = .ok messages) :
    Service.FetchNewMessages repo st = (.ok messages, (repo.GetNewMessages st).2) := by
  unfold Service.FetchNewMessages
  rcases hr : repo.GetNewMessages st with ⟨res, st'⟩
  rw [hr] at h
  simp only at h
  subst h
  rfl

theorem Service_SubmitMessage_error {σ : Type} (repo : Repository σ) (uuid : String) (now : Int)
    (recipientUserName messageContent : String) (st : σ) (e : GoError)
    (h : (repo.InsertMessage
      { ID := uuid, RecipientUserName := recipientUserName, Content := messageContent,
        SentAt := now, FetchedAt := none } st).1 = some e) :
    Service.SubmitMessage repo uuid now recipientUserName messageContent st =
      (.error (.wrapf "insert message" e),
        (repo.InsertMessage
          { ID := uuid, RecipientUserName := recipientUserName, Content := messageContent,
            SentAt := now, FetchedAt := none } st).2) := by
  unfold Service.SubmitMessage
  simp only
  rcases hr : repo.InsertMessage
    { ID := uuid, RecipientUserName := recipientUserName, Content := messageContent,
      SentAt := now, FetchedAt := none } st with ⟨res, st'⟩
  rw [hr] at h
  simp only at h
  subst h
  rfl

theorem Service_SubmitMessage_ok {σ : Type} (repo : Repository σ) (uuid : String) (now : Int)
    (recipientUserName messageContent : String) (st : σ)
    (h : (repo.InsertMessage
      { ID := uuid, RecipientUserName := recipientUserName, Content := messageContent,
        SentAt := now, FetchedAt := none } st).1 = none) :
    Service.SubmitMessage repo uuid now recipientUserName messageContent st =
      (.ok uuid,
        (repo.InsertMessage
          { ID := uuid, RecipientUserName := recipientUserName, Content := messageContent,
            SentAt := now, FetchedAt := none } st).2) := by
  unfold Service.SubmitMessage
  simp only
  rcases hr : repo.InsertMessage
    { ID := uuid, RecipientUserName := recipientUserName, Content := messageContent,
      SentAt := now, FetchedAt := none } st with ⟨res, st'⟩
  rw [hr] at h
  simp only at h
  subst h
  rfl

theorem DeleteMessages_error_form (db : Driver) (store : Store) (messageIDs : List String)
    (err : GoError) (h : (postgres.DeleteMessages db store messageIDs).1 = some err) :
    ∃ ctx cause, err = .wrapf ctx cause ∧
      (cause = .ErrNotFound ∨ db.beginErr = some cause ∨ db.execErr = some cause ∨
        db.commitErr = some cause) := by
  unfold postgres.DeleteMessages at h
  cases hb : db.beginErr with
  | some e =>
    simp only [hb, Option.some.injEq] at h
    exact ⟨_, e, h.symm, Or.inr (Or.inl rfl)⟩
  | none =>
    cases he : db.execErr with
    | some e =>
      simp only [hb, he, Option.some.injEq] at h
      exact ⟨_, e, h.symm, Or.inr (Or.inr (Or.inl rfl))⟩
    | none =>
      by_cases hne : (execDelete store messageIDs).2 ≠ messageIDs.length
      · simp only [hb, he, hne, if_true, ne_eq, not_false_eq_true, Option.some.injEq] at h
        exact ⟨_, .ErrNotFound, h.symm, Or.inl rfl⟩
      · cases hc : db.commitErr with
        | some e =>
          simp only [hb, he, hc, hne, if_false, Option.some.injEq] at h
          exact ⟨_, e, h.symm, Or.inr (Or.inr (Or.inr rfl))⟩
        | none => simp [hb, he, hc, hne] at h

theorem getSentAt_error_form (db : Driver) (store : Store) (messageID : String) (err : GoError)
    (h : postgres.getSentAt db store messageID = .error err) :
    ∃ ctx cause, err = .wrapf ctx cause ∧
      (cause = .ErrNotFound ∨ db.queryRowErr messageID = some cause) := by
  unfold postgres.getSentAt at h
  cases hq : db.queryRowErr messageID with
  | some e =>
    simp only [hq] at h
    split at h
    · cases h; exact ⟨_, .ErrNotFound, rfl, Or.inl rfl⟩
    · cases h; exact ⟨_, e, rfl, Or.inr rfl⟩
  | none =>
    cases hf : store.find? (fun row => row.ID == messageID) with
    | none =>
      simp only [hq, hf] at h
      split at h
      · cases h; exact ⟨_, .ErrNotFound, rfl, Or.inl rfl⟩
      · cases h; exact ⟨_, .ErrNoRows, rfl, Or.inl (by rename_i hn; exact absurd (by decide) hn)⟩
    | some row => simp [hq, hf] at h

theorem scanRows_error (db : Driver) (scan : Message → Message) :
    ∀ (rows : List Message) (i : Nat) (err : GoError),
      scanRows db scan i rows = .error err →
      ∃ j cause, db.scanErr j = some cause ∧ err = .wrapf "scan message" cause := by
  intro rows
  induction rows with
  | nil => intro i err h; simp [scanRows] at h
  | cons row rows ih =>
    intro i err h
    unfold scanRows at h
    cases hs : db.scanErr i with
    | some e =>
      simp only [hs, Except.error.injEq] at h
      exact ⟨i, e, hs, h.symm⟩
    | none =>
      cases hr : scanRows db scan (i + 1) rows with
      | error e =>
        simp only [hs, hr, Except.error.injEq] at h
        subst h
        exact ih (i + 1) e hr
      | ok rest => simp [hs, hr] at h

theorem GetAllMessages_error_form (db : Driver) (store : Store)
    (startCursor endCursor : Option String) (err : GoError)
    (h : (postgres.GetAllMessages db store startCursor endCursor).1 = .error err) :
    ∃ ctx cause, err = .wrapf ctx cause ∧
      ((∃ id, postgres.getSentAt db store id = .error cause) ∨ db.queryErr = some cause ∨
        (∃ i, db.scanErr i = some cause)) := by
  have hscan : ∀ startAt endAt,
      (match db.queryErr with
        | some err => ((Except.error (GoError.wrapf "select messages" err) :
            Except GoError (List Message)), store)
        | none => (scanRows db scanAll 0 (queryAll store startAt endAt), store)).1 =
        .error err →
      ∃ ctx cause, err = .wrapf ctx cause ∧
        ((∃ id, postgres.getSentAt db store id = .error cause) ∨ db.queryErr = some cause ∨
          (∃ i, db.scanErr i = some cause)) := by
    intro startAt endAt hq
    cases hqe : db.queryErr with
    | some e =>
      simp only [hqe, Except.error.injEq] at hq
      exact ⟨_, e, hq.symm, Or.inr (Or.inl rfl)⟩
    | none =>
      simp only [hqe] at hq
      obtain ⟨j, cause, hj, herr⟩ := scanRows_error db scanAll _ 0 err hq
      exact ⟨_, cause, herr, Or.inr (Or.inr ⟨j, hj⟩)⟩
  rcases GetAllMessages_error db store startCursor endCursor err h with
    ⟨ctx, id, e, hg, herr⟩ | ⟨startAt, endAt, hs, he⟩
  · exact ⟨ctx, e, herr, Or.inl ⟨id, hg⟩⟩
  · have hall := h
    unfold postgres.GetAllMessages at hall
    rcases hs with ⟨rfl, rfl⟩ | ⟨s, ts, rfl, hgs, rfl⟩ <;>
      rcases he with ⟨rfl, rfl⟩ | ⟨e, te, rfl, hge, rfl⟩
    · exact hscan none none hall
    · simp only [hge] at hall
      exact hscan none (some te) hall
    · simp only [hgs] at hall
      exact hscan (some ts) none hall
    · simp only [hgs, hge] at hall
      exact hscan (some ts) (some te) hall

/-! ## Errors through the service -/

/-- Claim C21.  The service keeps `NotFound` distinguishable: for every error
`e` that the repository returns to `Service.DeleteMessages` or
`Service.GetAllMessages`, the service returns an error `err` with
`errors.Is(err, model.ErrNotFound)` exactly when `errors.Is(e,
model.ErrNotFound)`.  The same holds inside the repository: every error of
`Repository.DeleteMessages`, `Repository.GetAllMessages` and `getSentAt` is a
cause wrapped with `%w` (the sentinel itself, or an error of the driver or of
`getSentAt`), and it is `ErrNotFound` exactly when its cause is. -/
theorem NotFound_kept_through_wrapping :
    (∀ (σ : Type) (repo : Repository σ) (messageIDs : List String) (st : σ) (e : GoError),
      (repo.DeleteMessages messageIDs st).1 = some e →
      ∃ err, (Service.DeleteMessages repo messageIDs st).1 = some err ∧
        (err.Is .ErrNotFound = true ↔ e.Is .ErrNotFound = true)) ∧
    (∀ (σ : Type) (repo : Repository σ) (startCursor endCursor : Option String) (st : σ)
      (e : GoError),
      (repo.GetAllMessages startCursor endCursor st).1 = .error e →
      ∃ err, (Service.GetAllMessages repo startCursor endCursor st).1 = .error err ∧
        (err.Is .ErrNotFound = true ↔ e.Is .ErrNotFound = true)) ∧
    (∀ (db : Driver) (store : Store) (messageIDs : List String) (err : GoError),
      (postgres.DeleteMessages db store messageIDs).1 = some err →
      ∃ ctx cause, err = .wrapf ctx cause ∧
        (cause = .ErrNotFound ∨ db.beginErr = some cause ∨ db.execErr = some cause ∨
          db.commitErr = some cause) ∧
        (err.Is .ErrNotFound = true ↔ cause.Is .ErrNotFound = true)) ∧
    (∀ (db : Driver) (store : Store) (startCursor endCursor : Option String) (err : GoError),
      (postgres.GetAllMessages db store startCursor endCursor).1 = .error err →
      ∃ ctx cause, err = .wrapf ctx cause ∧
        ((∃ id, postgres.getSentAt db store id = .error cause) ∨ db.queryErr = some cause ∨
          (∃ i, db.scanErr i = some cause)) ∧
        (err.Is .ErrNotFound = true ↔ cause.Is .ErrNotFound = true)) ∧
    (∀ (db : Driver) (store : Store) (messageID : String) (err : GoError),
      postgres.getSentAt db store messageID = .error err →
      ∃ ctx cause, err = .wrapf ctx cause ∧
        (cause = .ErrNotFound ∨ db.queryRowErr messageID = some cause) ∧
        (err.Is .ErrNotFound = true ↔ cause.Is .ErrNotFound = true)) := by
  refine ⟨?_, ?_, ?_, ?_, ?_⟩
  · intro σ repo messageIDs st e h
    rw [Service_DeleteMessages_error repo messageIDs st e h]
    exact ⟨_, rfl, by rw [Is_wrapf_ErrNotFound]⟩
  · intro σ repo startCursor endCursor st e h
    rw [Service_GetAllMessages_error repo startCursor endCursor st e h]
    exact ⟨_, rfl, by rw [Is_wrapf_ErrNotFound]⟩
  · intro db store messageIDs err h
    obtain ⟨ctx, cause, herr, hcause⟩ := DeleteMessages_error_form db store messageIDs err h
    exact ⟨ctx, cause, herr, hcause, by rw [herr, Is_wrapf_ErrNotFound]⟩
  · intro db store startCursor endCursor err h
    obtain ⟨ctx, cause, herr, hcause⟩ :=
      GetAllMessages_error_form db store startCursor endCursor err h
    exact ⟨ctx, cause, herr, hcause, by rw [herr, Is_wrapf_ErrNotFound]⟩
  · intro db store messageID err h
    obtain ⟨ctx, cause, herr, hcause⟩ := getSentAt_error_form db store messageID err h
    exact ⟨ctx, cause, herr, hcause, by rw [herr, Is_wrapf_ErrNotFound]⟩

/-- Witness of C21: a repository whose `DeleteMessages` returns
`model.ErrNotFound`. -/
theorem NotFound_kept_through_wrapping_witness :
    ∃ err, (Service.DeleteMessages (mock.Repository mock.fail) ["id1"] []).1 = some err ∧
      (err.Is .ErrNotFound = true ↔ GoError.ErrNotFound.Is .ErrNotFound = true) :=
  NotFound_kept_through_wrapping.1 (List Call) (mock.Repository mock.fail) ["id1"] []
    .ErrNotFound rfl

/-- Claim C22.  The service never recovers or drops an error of the store.
Each of `SubmitMessage`, `FetchNewMessages`, `DeleteMessages` and
`GetAllMessages` returns the error of its repository call wrapped with its
context when that call returns an error (with no id and no list), and returns
no error when that call returns none; and on the mock repository, whatever its
functions answer, the calls recorded after the method are the calls recorded
before followed by that one call. -/
theorem Service_propagates_store_errors {σ : Type} (repo : Repository σ) (st : σ)
    (funcs : mock.Funcs) (calls : List Call) (uuid : String) (now : Int)
    (recipientUserName messageContent : String) (messageIDs : List String)
    (startCursor endCursor : Option String) :
    ((∀ e, (repo.InsertMessage
        { ID := uuid, RecipientUserName := recipientUserName, Content := messageContent,
          SentAt := now, FetchedAt := none } st).1 = some e →
        (Service.SubmitMessage repo uuid now recipientUserName messageContent st).1 =
          .error (.wrapf "insert message" e)) ∧
      ((repo.InsertMessage
        { ID := uuid, RecipientUserName := recipientUserName, Content := messageContent,
          SentAt := now, FetchedAt := none } st).1 = none →
        (Service.SubmitMessage repo uuid now recipientUserName messageContent st).1 =
          .ok uuid) ∧
      (Service.SubmitMessage (mock.Repository funcs) uuid now recipientUserName
        messageContent calls).2 =
        calls ++ [Call.InsertMessage
          { ID := uuid, RecipientUserName := recipientUserName, Content := messageContent,
            SentAt := now, FetchedAt := none }]) ∧
    ((∀ e, (repo.GetNewMessages st).1 = .error e →
        (Service.FetchNewMessages repo st).1 = .error (.wrapf "get new messages" e)) ∧
      (∀ messages, (repo.GetNewMessages st).1 = .ok messages →
        (Service.FetchNewMessages repo st).1 = .ok messages) ∧
      (Service.FetchNewMessages (mock.Repository funcs) calls).2 =
        calls ++ [Call.GetNewMessages]) ∧
    ((∀ e, (repo.DeleteMessages messageIDs st).1 = some e →
        (Service.DeleteMessages repo messageIDs st).1 =
          some (.wrapf "delete messages" e)) ∧
      ((repo.DeleteMessages messageIDs st).1 = none →
        (Service.DeleteMessages repo messageIDs st).1 = none) ∧
      (Service.DeleteMessages (mock.Repository funcs) messageIDs calls).2 =
        calls ++ [Call.DeleteMessages messageIDs]) ∧
    ((∀ e, (repo.GetAllMessages startCursor endCursor st).1 = .error e →
        (Service.GetAllMessages repo startCursor endCursor st).1 =
          .error (.wrapf "get all messages" e)) ∧
      (∀ messages, (repo.GetAllMessages startCursor endCursor st).1 = .ok messages →
        (Service.GetAllMessages repo startCursor endCursor st).1 = .ok messages) ∧
      (Service.GetAllMessages (mock.Repository funcs) startCursor endCursor calls).2 =
        calls ++ [Call.GetAllMessages startCursor endCursor]) := by
  refine ⟨⟨?_, ?_, ?_⟩, ⟨?_, ?_, ?_⟩, ⟨?_, ?_, ?_⟩, ⟨?_, ?_, ?_⟩⟩
  · intro e h
    rw [Service_SubmitMessage_error repo uuid now recipientUserName messageContent st e h]
  · intro h
    rw [Service_SubmitMessage_ok repo uuid now recipientUserName messageContent st h]
  · cases h : ((mock.Repository funcs).InsertMessage
        { ID := uuid, RecipientUserName := recipientUserName, Content := messageContent,
          SentAt := now, FetchedAt := none } calls).1 with
    | some e =>
      rw [Service_SubmitMessage_error _ uuid now recipientUserName messageContent calls e h]
      rfl
    | none =>
      rw [Service_SubmitMessage_ok _ uuid now recipientUserName messageContent calls h]
      rfl
  · intro e h
    rw [Service_FetchNewMessages_error repo st e h]
  · intro messages h
    rw [Service_FetchNewMessages_ok repo st messages h]
  · cases h : ((mock.Repository funcs).GetNewMessages calls).1 with
    | error e => rw [Service_FetchNewMessages_error _ calls e h]; rfl
    | ok messages => rw [Service_FetchNewMessages_ok _ calls messages h]; rfl
  · intro e h
    rw [Service_DeleteMessages_error repo messageIDs st e h]
  · intro h
    rw [Service_DeleteMessages_ok repo messageIDs st h]
  · cases h : ((mock.Repository funcs).DeleteMessages messageIDs calls).1 with
    | some e => rw [Service_DeleteMessages_error _ messageIDs calls e h]; rfl
    | none => rw [Service_DeleteMessages_ok _ messageIDs calls h]; rfl
  · intro e h
    rw [Service_GetAllMessages_error repo startCursor endCursor st e h]
  · intro messages h
    rw [Service_GetAllMessages_ok repo startCursor endCursor st messages h]
  · cases h : ((mock.Repository funcs).GetAllMessages startCursor endCursor calls).1 with
    | error e => rw [Service_GetAllMessages_error _ startCursor endCursor calls e h]; rfl
    | ok messages => rw [Service_GetAllMessages_ok _ startCursor endCursor calls messages h]; rfl

/-- Witness of C22: `FetchNewMessages` on a repository whose `GetNewMessages`
fails in the driver. -/
theorem Service_propagates_store_errors_witness :
    (Service.FetchNewMessages (mock.Repository mock.fail) []).1 =
      .error (.wrapf "get new messages" (.driver "connection reset")) :=
  (Service_propagates_store_errors (mock.Repository mock.fail) [] mock.fail [] "uuid" 7
    "recipient" "content" ["id1"] none none).2.1.1 (.driver "connection reset") rfl

/-- Counterexample to C23: `Service.DeleteMessages` with the empty id list
invokes `DeleteMessages` of its repository, and with the postgres repository it
returns no error. -/
theorem Service_DeleteMessages_empty_reaches_store :
    Service.DeleteMessages (mock.Repository mock.succeed) [] [] =
      (none, [Call.DeleteMessages []]) ∧
    Service.DeleteMessages (postgres.NewRepository Driver.ok 100) [] [msg1, msg2] =
      (none, [msg1, msg2]) := by
  decide

/-- Claim C23, amended.  `Service.DeleteMessages` does not reject an empty id
list: it invokes `DeleteMessages` of its repository with it, once, like with
every other list, and returns what the repository returns; with the postgres
repository, when no driver call fails, that is no error and an unchanged
table. -/
theorem Service_DeleteMessages_empty_forwarded (funcs : mock.Funcs) (calls : List Call)
    (db : Driver) (dbNow : Int) (store : Store)
    (hbegin : db.beginErr = none) (hexec : db.execErr = none)
    (hcommit : db.commitErr = none) :
    (Service.DeleteMessages (mock.Repository funcs) [] calls).2 =
      calls ++ [Call.DeleteMessages []] ∧
    ((Service.DeleteMessages (mock.Repository funcs) [] calls).1 = none ↔
      funcs.DeleteMessagesFunc [] = none) ∧
    Service.DeleteMessages (postgres.NewRepository db dbNow) [] store = (none, store) := by
  refine ⟨?_, ?_, ?_⟩
  · cases h : ((mock.Repository funcs).DeleteMessages [] calls).1 with
    | some e => rw [Service_DeleteMessages_error _ [] calls e h]; rfl
    | none => rw [Service_DeleteMessages_ok _ [] calls h]; rfl
  · cases h : ((mock.Repository funcs).DeleteMessages [] calls).1 with
    | some e =>
      rw [Service_DeleteMessages_error _ [] calls e h]
      have : funcs.DeleteMessagesFunc [] = some e := h
      simp [this]
    | none =>
      rw [Service_DeleteMessages_ok _ [] calls h]
      have : funcs.DeleteMessagesFunc [] = none := h
      simp [this]
  · have hrepo : postgres.DeleteMessages db store [] = (none, store) := by
      rw [DeleteMessages_of_count_eq db store [] hbegin hexec hcommit (by simp [execDelete])]
      simp [execDelete]
    have hnone : ((postgres.NewRepository db dbNow).DeleteMessages [] store).1 = none := by
      show (postgres.DeleteMessages db store []).1 = none
      rw [hrepo]
    rw [Service_DeleteMessages_ok _ [] store hnone]
    show (none, (postgres.DeleteMessages db store []).2) = (none, store)
    rw [hrepo]

/-- Witness of the amended C23: the mock whose functions succeed, and the
postgres repository on the table `id1`, `id2`, `id3`. -/
theorem Service_DeleteMessages_empty_forwarded_witness :
    (Service.DeleteMessages (mock.Repository mock.succeed) [] []).2 =
      [] ++ [Call.DeleteMessages []] ∧
    ((Service.DeleteMessages (mock.Repository mock.succeed) [] []).1 = none ↔
      mock.succeed.DeleteMessagesFunc [] = none) ∧
    Service.DeleteMessages (postgres.NewRepository Driver.ok 100) [] [msg1, msg2, msg3] =
      (none, [msg1, msg2, msg3]) :=
  Service_DeleteMessages_empty_forwarded mock.succeed [] Driver.ok 100 [msg1, msg2, msg3]
    rfl rfl rfl

/-! ## Frame of `GetNewMessages` and inverted ranges -/

theorem execUpdate_columns (now : Int) (store : Store) (messageIDs : List String) :
    (execUpdate now store messageIDs).map
        (fun m => (m.ID, m.RecipientUserName, m.Content, m.SentAt)) =
      store.map (fun m => (m.ID, m.RecipientUserName, m.Content, m.SentAt)) := by
  unfold execUpdate
  rw [List.map_map]
  apply List.map_congr_left
  intro m _
  by_cases h : m.ID ∈ messageIDs <;> simp [h]

theorem GetAllMessages_of_resolved_query (db : Driver) (store : Store)
    (startCursor endCursor : Option String) (startAt endAt : Option Int)
    (hstart : Resolves db store startCursor startAt)
    (hend : Resolves db store endCursor endAt)
    (hquery : db.queryErr = none) :
    postgres.GetAllMessages db store startCursor endCursor =
      (scanRows db scanAll 0 (queryAll store startAt endAt), store) := by
  unfold postgres.GetAllMessages
  rcases hstart with ⟨rfl, rfl⟩ | ⟨s, ts, rfl, hgs, rfl⟩ <;>
    rcases hend with ⟨rfl, rfl⟩ | ⟨e, te, rfl, hge, rfl⟩ <;>
    simp only [*]

theorem queryAll_inverted (store : Store) (startAt endAt : Int) (hlt : endAt < startAt) :
    queryAll store (some startAt) (some endAt) = [] := by
  apply List.eq_nil_iff_forall_not_mem.mpr
  intro m hm
  obtain ⟨_, hs, he⟩ := (mem_queryAll store _ _ m).mp hm
  have h1 := hs startAt rfl
  have h2 := he endAt rfl
  omega

/-- Claim C28.  On a table keyed by id, a successful `GetNewMessages` changes
nothing but the `fetched_at` of the rows it returns: the table afterwards holds
the same rows in the same order with identical id, recipient user name, content
and `SentAt`, and a row has a `fetched_at` different from before exactly when
it is one of the rows returned. -/
theorem GetNewMessages_changes_only_returned (db : Driver) (now : Int) (store : Store)
    (messages : List Message)
    (huniq : UniqueIDs store)
    (hok : (postgres.GetNewMessages db now store).1 = .ok messages) :
    (postgres.GetNewMessages db now store).2.map
        (fun m => (m.ID, m.RecipientUserName, m.Content, m.SentAt)) =
      store.map (fun m => (m.ID, m.RecipientUserName, m.Content, m.SentAt)) ∧
    ∀ old ∈ store, ∀ new ∈ (postgres.GetNewMessages db now store).2, new.ID = old.ID →
      (new.FetchedAt ≠ old.FetchedAt ↔ old ∈ messages) := by
  obtain ⟨hq, hstore⟩ := GetNewMessages_ok db now store messages hok
  rw [hstore]
  subst hq
  refine ⟨execUpdate_columns now store _, ?_⟩
  intro old hold new hnew hid
  obtain ⟨row, hrow, hrid, hcase⟩ := execUpdate_row_ID now store _ new hnew
  have hrow_eq : row = old := eq_of_ID_eq huniq hrow hold (hrid.trans hid)
  subst hrow_eq
  rcases hcase with ⟨hin, hf⟩ | ⟨hnin, heq⟩
  · obtain ⟨q, hqmem, hqid⟩ := List.mem_map.mp hin
    obtain ⟨hqs, hqn⟩ := (mem_queryNew store q).mp hqmem
    have hqr : q = row := eq_of_ID_eq huniq hqs hrow hqid
    subst hqr
    constructor
    · intro _; exact hqmem
    · intro _; rw [hf, hqn]; simp
  · subst heq
    constructor
    · intro hne; exact absurd rfl hne
    · intro hmem
      exact absurd (List.mem_map.mpr ⟨new, hmem, rfl⟩) hnin

/-- Witness of C28: the table `id1`, `id2`, `id3` at database time 100, watched
at the row `id1`, which the call returns and marks. -/
theorem GetNewMessages_changes_only_returned_witness :
    msg1Fetched.FetchedAt ≠ msg1.FetchedAt ↔ msg1 ∈ [msg3, msg1] :=
  (GetNewMessages_changes_only_returned Driver.ok 100 [msg1, msg2, msg3] [msg3, msg1]
    (by decide) (by decide)).2 msg1 (by decide) msg1Fetched (by decide) rfl

/-- Claim C29.  On a table keyed by id, with a start cursor whose message has a
strictly later `SentAt` than the message of the end cursor, `GetAllMessages`
does not reject the range: a successful call returns no message (so neither
cursor message), and the call succeeds with the empty result whenever the
cursor lookups and the query go through. -/
theorem GetAllMessages_inverted_range_empty (db : Driver) (store : Store)
    (startMsg endMsg : Message)
    (huniq : UniqueIDs store) (hstart : startMsg ∈ store) (hend : endMsg ∈ store)
    (hlt : endMsg.SentAt < startMsg.SentAt) :
    (∀ messages,
      (postgres.GetAllMessages db store (some startMsg.ID) (some endMsg.ID)).1 =
        .ok messages → messages = []) ∧
    ((∀ id, db.queryRowErr id = none) → db.queryErr = none →
      postgres.GetAllMessages db store (some startMsg.ID) (some endMsg.ID) =
        (.ok [], store)) := by
  constructor
  · intro messages hok
    obtain ⟨startAt, endAt, hs, he, hq⟩ := GetAllMessages_ok db store _ _ messages hok
    have hsa := resolves_unique db huniq (some startMsg)
      (fun cm h => by cases h; exact hstart) startAt hs
    have hea := resolves_unique db huniq (some endMsg)
      (fun cm h => by cases h; exact hend) endAt he
    subst hsa hea hq
    exact queryAll_inverted store _ _ hlt
  · intro hrow hquery
    have hs := resolves_of_stored db huniq (some startMsg)
      (fun cm h => by cases h; exact hstart) hrow
    have he := resolves_of_stored db huniq (some endMsg)
      (fun cm h => by cases h; exact hend) hrow
    have hall := GetAllMessages_of_resolved_query db store (some startMsg.ID)
      (some endMsg.ID) (some startMsg.SentAt) (some endMsg.SentAt) hs he hquery
    rw [hall, queryAll_inverted store _ _ hlt]
    rfl

/-- Witness of C29: the table `id1` (sent at 20), `id2` (sent at 10), `id3`
(sent at 5), the start cursor `id1` and the end cursor `id3`. -/
theorem GetAllMessages_inverted_range_empty_witness :
    (∀ messages,
      (postgres.GetAllMessages Driver.ok [msg1, msg2, msg3] (some msg1.ID)
        (some msg3.ID)).1 = .ok messages → messages = []) ∧
    ((∀ id, Driver.ok.queryRowErr id = none) → Driver.ok.queryErr = none →
      postgres.GetAllMessages Driver.ok [msg1, msg2, msg3] (some msg1.ID) (some msg3.ID) =
        (.ok [], [msg1, msg2, msg3])) :=
  GetAllMessages_inverted_range_empty Driver.ok [msg1, msg2, msg3] msg1 msg3 (by decide)
    (by decide) (by decide) (by decide)

/-! ## Handlers -/

theorem deleteMessages_of_no_ids {σ : Type} (service : api.Service σ) (messageIDs : Slice String)
    (st : σ) (h : messageIDs.len = 0) :
    api.deleteMessages service (.ok messageIDs) st =
      (respondJSONStatus (.HTTPError "message_ids is required") 400, st) := by
  unfold api.deleteMessages
  simp only [h, if_true]

theorem deleteMessages_of_ids {σ : Type} (service : api.Service σ) (messageIDs : Slice String)
    (st : σ) (h : messageIDs.len ≠ 0) :
    api.deleteMessages service (.ok messageIDs) st =
      (match (service.DeleteMessages messageIDs.toList st).1 with
        | some err =>
          if err.Is .ErrNotFound then respondJSONStatus (.HTTPError "message not found") 404
          else respondJSONStatus (.HTTPError "error deleting messages") 500
        | none => { status := 204, body := .none },
       (service.DeleteMessages messageIDs.toList st).2) := by
  unfold api.deleteMessages
  simp only [h, if_false]
  rcases service.DeleteMessages messageIDs.toList st with ⟨res, st'⟩
  cases res with
  | none => rfl
  | some err =>
    simp only
    split <;> rfl

theorem getAllMessages_eq {σ : Type} (service : api.Service σ)
    (startCursorRaw endCursorRaw : String) (st : σ) :
    api.getAllMessages service startCursorRaw endCursorRaw st =
      (match (service.GetAllMessages
          (if startCursorRaw ≠ "" then some startCursorRaw else none)
          (if endCursorRaw ≠ "" then some endCursorRaw else none) st).1 with
        | .error err =>
          if err.Is .ErrNotFound then respondJSONStatus (.HTTPError "message not found") 404
          else respondJSONStatus (.HTTPError "error fetching all messages") 500
        | .ok .nil => respondJSONStatus (.messages (.elems [])) 200
        | .ok (.elems ms) => respondJSONStatus (.messages (.elems ms)) 200,
       (service.GetAllMessages
          (if startCursorRaw ≠ "" then some startCursorRaw else none)
          (if endCursorRaw ≠ "" then some endCursorRaw else none) st).2) := by
  unfold api.getAllMessages
  simp only
  rcases service.GetAllMessages
    (if startCursorRaw ≠ "" then some startCursorRaw else none)
    (if endCursorRaw ≠ "" then some endCursorRaw else none) st with ⟨res, st'⟩
  cases res with
  | error err =>
    simp only
    split <;> rfl
  | ok messages => cases messages <;> rfl

theorem getNewMessages_eq {σ : Type} (service : api.Service σ) (st : σ) :
    api.getNewMessages service st =
      (match (service.FetchNewMessages st).1 with
        | .error _ => respondJSONStatus (.HTTPError "error fetching new messages") 500
        | .ok .nil => respondJSONStatus (.messages (.elems [])) 200
        | .ok (.elems ms) => respondJSONStatus (.messages (.elems ms)) 200,
       (service.FetchNewMessages st).2) := by
  unfold api.getNewMessages
  rcases service.FetchNewMessages st with ⟨res, st'⟩
  cases res with
  | error err => rfl
  | ok messages => cases messages <;> rfl

theorem postMessage_of_recipient {σ : Type} (service : api.Service σ)
    (recipientUserName content : String) (st : σ) (h : recipientUserName ≠ "") :
    api.postMessage service (.ok (recipientUserName, content)) st =
      (match (service.SubmitMessage recipientUserName content st).1 with
        | .error _ => respondJSONStatus (.HTTPError "error submitting message") 500
        | .ok messageID => respondJSONStatus (.messageID messageID) 200,
       (service.SubmitMessage recipientUserName content st).2) := by
  unfold api.postMessage
  simp only [h, if_false]
  rcases service.SubmitMessage recipientUserName content st with ⟨res, st'⟩
  cases res <;> rfl

/-- Claim C24.  For a DELETE request whose decoded body has a missing (nil) or
an empty `message_ids` list, the handler `deleteMessages` responds with status
400 and the body `{"message":"message_ids is required"}` (a newline after it)
and does not invoke `Service.DeleteMessages`; for a list that is not empty it
invokes `Service.DeleteMessages` exactly once, with the ids in the order
given. -/
theorem deleteMessages_requires_ids (funcs : mock.ServiceFuncs) (calls : List ServiceCall)
    (messageIDs : Slice String) (encodeMessage : Message → String) :
    (messageIDs = .nil ∨ messageIDs = .elems [] →
      api.deleteMessages (mock.Service funcs) (.ok messageIDs) calls =
        ({ status := 400, body := .HTTPError "message_ids is required" }, calls) ∧
      (api.deleteMessages (mock.Service funcs) (.ok messageIDs) calls).1.body.encode
        encodeMessage = "\x7b\"message\":\"message_ids is required\"\x7d\n") ∧
    (messageIDs.toList ≠ [] →
      (api.deleteMessages (mock.Service funcs) (.ok messageIDs) calls).2 =
        calls ++ [ServiceCall.DeleteMessages messageIDs.toList]) := by
  constructor
  · intro h
    have hlen : messageIDs.len = 0 := by
      rcases h with rfl | rfl <;> rfl
    rw [deleteMessages_of_no_ids _ messageIDs calls hlen]
    exact ⟨rfl, rfl⟩
  · intro h
    have hlen : messageIDs.len ≠ 0 := by
      cases messageIDs with
      | nil => exact absurd rfl h
      | elems xs =>
        intro h0
        exact h (List.length_eq_zero.mp h0)
    rw [deleteMessages_of_ids _ messageIDs calls hlen]
    rfl

/-- Witness of C24: the body `{}` of the handler test, decoded to a nil
`message_ids`. -/
theorem deleteMessages_requires_ids_witness :
    api.deleteMessages (mock.Service mock.serviceNil) (.ok .nil) [] =
      ({ status := 400, body := .HTTPError "message_ids is required" }, []) ∧
    (api.deleteMessages (mock.Service mock.serviceNil) (.ok .nil) []).1.body.encode
      (fun _ => "") = "\x7b\"message\":\"message_ids is required\"\x7d\n" :=
  (deleteMessages_requires_ids mock.serviceNil [] .nil (fun _ => "")).1 (Or.inl rfl)

/-- Claim C25.  In the handlers `deleteMessages` and `getAllMessages` the
response is a function of the result of the service: success gives 204
(delete) or 200 (list); an error `err` of the service gives 404 with the
message `message not found` exactly when `errors.Is(err, model.ErrNotFound)`,
and 500 otherwise. -/
theorem handlers_status_of_service_result {σ : Type} (service : api.Service σ) (st : σ)
    (messageIDs : Slice String) (startCursorRaw endCursorRaw : String)
    (hids : messageIDs.toList ≠ []) :
    (((service.DeleteMessages messageIDs.toList st).1 = none →
        (api.deleteMessages service (.ok messageIDs) st).1.status = 204) ∧
      (∀ err, (service.DeleteMessages messageIDs.toList st).1 = some err →
        (err.Is .ErrNotFound = true →
          (api.deleteMessages service (.ok messageIDs) st).1 =
            { status := 404, body := .HTTPError "message not found" }) ∧
        (err.Is .ErrNotFound = false →
          (api.deleteMessages service (.ok messageIDs) st).1.status = 500) ∧
        ((api.deleteMessages service (.ok messageIDs) st).1.status = 404 ↔
          err.Is .ErrNotFound = true))) ∧
    ((∀ messages,
        (service.GetAllMessages (if startCursorRaw ≠ "" then some startCursorRaw else none)
          (if endCursorRaw ≠ "" then some endCursorRaw else none) st).1 = .ok messages →
        (api.getAllMessages service startCursorRaw endCursorRaw st).1.status = 200) ∧
      (∀ err,
        (service.GetAllMessages (if startCursorRaw ≠ "" then some startCursorRaw else none)
          (if endCursorRaw ≠ "" then some endCursorRaw else none) st).1 = .error err →
        (err.Is .ErrNotFound = true →
          (api.getAllMessages service startCursorRaw endCursorRaw st).1 =
            { status := 404, body := .HTTPError "message not found" }) ∧
        (err.Is .ErrNotFound = false →
          (api.getAllMessages service startCursorRaw endCursorRaw st).1.status = 500) ∧
        ((api.getAllMessages service startCursorRaw endCursorRaw st).1.status = 404 ↔
          err.Is .ErrNotFound = true))) := by
  have hlen : messageIDs.len ≠ 0 := by
    cases messageIDs with
    | nil => exact absurd rfl hids
    | elems xs =>
      intro h0
      exact hids (List.length_eq_zero.mp h0)
  rw [deleteMessages_of_ids service messageIDs st hlen,
    getAllMessages_eq service startCursorRaw endCursorRaw st]
  refine ⟨⟨?_, ?_⟩, ⟨?_, ?_⟩⟩
  · intro h
    simp only [h]
  · intro err h
    simp only [h]
    cases hIs : err.Is .ErrNotFound <;> simp [respondJSONStatus]
  · intro messages h
    simp only [h]
    cases messages <;> rfl
  · intro err h
    simp only [h]
    cases hIs : err.Is .ErrNotFound <;> simp [respondJSONStatus]

/-- Witness of C25: a service whose `DeleteMessages` returns the wrapped
`model.ErrNotFound`, and the id list of the handler test. -/
theorem handlers_status_of_service_result_witness :
    (api.deleteMessages (mock.Service mock.serviceNotFound)
      (.ok (.elems ["message-id-1", "message-id-2"])) []).1 =
      { status := 404, body := .HTTPError "message not found" } :=
  ((handlers_status_of_service_result (mock.Service mock.serviceNotFound) []
    (.elems ["message-id-1", "message-id-2"]) "" "" (by decide)).1.2
    (.wrapf "delete messages" .ErrNotFound) rfl).1 (by decide)

/-- Claim C26.  For a POST request whose decoded body has a missing or empty
`recipient_user_name`, the handler `postMessage` responds with status 400 and
does not invoke `Service.SubmitMessage`; for every other recipient, also when
the content is empty, it invokes `Service.SubmitMessage` exactly once with that
recipient and content, and when the service returns an id it responds with
status 200 and that id as `message_id`. -/
theorem postMessage_requires_recipient (funcs : mock.ServiceFuncs) (calls : List ServiceCall)
    (recipientUserName content : String) :
    (recipientUserName = "" →
      (api.postMessage (mock.Service funcs) (.ok (recipientUserName, content)) calls).1.status =
        400 ∧
      (api.postMessage (mock.Service funcs) (.ok (recipientUserName, content)) calls).2 =
        calls) ∧
    (recipientUserName ≠ "" →
      (api.postMessage (mock.Service funcs) (.ok (recipientUserName, content)) calls).2 =
        calls ++ [ServiceCall.SubmitMessage recipientUserName content] ∧
      ∀ messageID, funcs.SubmitMessageFunc recipientUserName content = .ok messageID →
        (api.postMessage (mock.Service funcs) (.ok (recipientUserName, content)) calls).1 =
          { status := 200, body := .messageID messageID }) := by
  constructor
  · intro h
    subst h
    exact ⟨rfl, rfl⟩
  · intro h
    rw [postMessage_of_recipient _ recipientUserName content calls h]
    refine ⟨rfl, ?_⟩
    intro messageID hfunc
    have : ((mock.Service funcs).SubmitMessage recipientUserName content calls).1 =
        .ok messageID := hfunc
    simp only [this]
    rfl

/-- Witness of C26: the recipient `recipient` with an empty content. -/
theorem postMessage_requires_recipient_witness :
    (api.postMessage (mock.Service mock.serviceNil) (.ok ("recipient", "")) []).2 =
      [] ++ [ServiceCall.SubmitMessage "recipient" ""] ∧
    ∀ messageID, mock.serviceNil.SubmitMessageFunc "recipient" "" = .ok messageID →
      (api.postMessage (mock.Service mock.serviceNil) (.ok ("recipient", "")) []).1 =
        { status := 200, body := .messageID messageID } :=
  (postMessage_requires_recipient mock.serviceNil [] "recipient" "").2 (by decide)

/-- Claim C27.  When the service returns a nil message list and no error, the
handlers `getNewMessages` and `getAllMessages` respond with status 200 and
encode an empty slice that is not nil, so the body is `[]` (a newline after
it) and not `null`. -/
theorem nil_list_sent_as_empty_array {σ : Type} (service : api.Service σ) (st : σ)
    (startCursorRaw endCursorRaw : String) (encodeMessage : Message → String) :
    ((service.FetchNewMessages st).1 = .ok .nil →
      (api.getNewMessages service st).1 =
        { status := 200, body := .messages (.elems []) } ∧
      (api.getNewMessages service st).1.body.encode encodeMessage = "[]\n") ∧
    ((service.GetAllMessages (if startCursorRaw ≠ "" then some startCursorRaw else none)
        (if endCursorRaw ≠ "" then some endCursorRaw else none) st).1 = .ok .nil →
      (api.getAllMessages service startCursorRaw endCursorRaw st).1 =
        { status := 200, body := .messages (.elems []) } ∧
      (api.getAllMessages service startCursorRaw endCursorRaw st).1.body.encode
        encodeMessage = "[]\n") := by
  rw [getNewMessages_eq service st, getAllMessages_eq service startCursorRaw endCursorRaw st]
  constructor
  · intro h
    simp only [h]
    exact ⟨rfl, rfl⟩
  · intro h
    simp only [h]
    exact ⟨rfl, rfl⟩

/-- Witness of C27: the mock of the handler tests, whose `FetchNewMessages`
returns `nil, nil`. -/
theorem nil_list_sent_as_empty_array_witness :
    (api.getNewMessages (mock.Service mock.serviceNil) []).1 =
      { status := 200, body := .messages (.elems []) } ∧
    (api.getNewMessages (mock.Service mock.serviceNil) []).1.body.encode (fun _ => "") =
      "[]\n" :=
  (nil_list_sent_as_empty_array (mock.Service mock.serviceNil) [] "" "" (fun _ => "")).1 rfl

end Mailbox
